import Mathlib

/-!
Verification development for the JVM-compatible execution subsystem of the
dice-rust repository (constant pool, class-file writer/reader, bytecode
decoder, and the stack-based interpreter).

The Lean definitions below are shallow embeddings of the Rust source:

* `src/jvm/jvm_types.rs`        — constant pool entries and `ConstantPool` adds
* `src/jvm/java_class_generator.rs` — `instructions_to_bytes`
* `src/jvm/class_file_parser.rs`    — `parse_bytecode`, `check_is_main_method`,
  and the main-method selection loop of `ClassFileParser::parse`
* `src/jvm/jvm_compatible_vm.rs`    — `JvmValue`, frames, `execute_method`,
  `execute_single_instruction`, constant/static-field/method resolution and
  the user-defined-method call loop

Modelling conventions, used throughout and noted again at each definition
where they matter:

* Rust machine integers are modelled as `Nat`/`Int` with explicit reductions
  (`% 256`, `% 65536`, two's-complement wrap) exactly where the source
  performs an `as` cast or where release-profile wrapping arithmetic occurs.
  Division/remainder overflow (`i32::MIN / -1`), which panics in every Rust
  profile, is modelled as a `crash` outcome.
* Rust `f32`/`f64` values are modelled as `Rat`.  The source-level operations
  that are exact on rationals (comparison with `0.0`, `+ - * /`, `floor`,
  `ceil`, truncating casts) are modelled directly; transcendental functions
  and float-to-decimal formatting are taken as parameters (`ExternOps`),
  since no property proved here depends on their values.
* Rust `HashMap`s are modelled as association lists where `insert` conses and
  `get` takes the first match (insert-overwrites-get semantics).
* A Rust panic (out-of-bounds `Vec` indexing, checked arithmetic overflow) is
  the `crash` outcome; potential non-termination of the interpreter's
  mutually recursive loops is made total with a fuel parameter whose
  exhaustion is the `nofuel` outcome.
-/

namespace DiceJvm

/-- Model of `RuntimeError` (src/error.rs), restricted to the variants the
JVM subsystem constructs or documents. -/
inductive RtError where
  | InvalidStackState
  | StackUnderflow
  | StackOverflow
  | DivisionByZero
  | InvalidInstructionPointer (pc : Nat)
  | InvalidOpcode (b : Nat)
  | CallStackOverflow
  | CallStackUnderflow
  | UnknownConstantPoolTag (tag : Nat) (index : Nat)
deriving DecidableEq, Repr

/-- Model of `ConstantPoolEntry` (src/jvm/jvm_types.rs).  `u16` indices are
`Nat`, `i32`/`i64` literals are `Int`, `f32`/`f64` literals are `Rat`. -/
inductive ConstantPoolEntry where
  | Utf8 (s : String)
  | Class (name_index : Nat)
  | String (utf8_index : Nat)
  | Fieldref (class_index : Nat) (name_and_type_index : Nat)
  | Methodref (class_index : Nat) (name_and_type_index : Nat)
  | NameAndType (name_index : Nat) (descriptor_index : Nat)
  | Integer (v : Int)
  | Float (v : Rat)
  | Long (v : Int)
  | Double (v : Rat)
  | Placeholder
deriving DecidableEq, Repr

/-- Model of `ConstantPool` (src/jvm/jvm_types.rs): a growable vector of
entries. -/
structure ConstantPool where
  entries : List ConstantPoolEntry
deriving DecidableEq, Repr

/-- Release-profile value of `index as u16 + 1` for a `usize` index: the cast
truncates modulo 2^16 and the `u16` addition wraps modulo 2^16. -/
def u16IndexSucc (index : Nat) : Nat :=
  (index % 65536 + 1) % 65536

namespace ConstantPool

/-- Model of `ConstantPool::add_utf8`.  The source checks
`index >= u16::MAX as usize` (65535) and panics on failure; the panic is the
`none` result. -/
def add_utf8 (p : ConstantPool) (value : String) : Option (Nat × ConstantPool) :=
  let index := p.entries.length
  if index ≥ 65535 then none
  else some (index + 1, ⟨p.entries ++ [.Utf8 value]⟩)

/-- Model of `ConstantPool::add_class` (cap-checked, like `add_utf8`). -/
def add_class (p : ConstantPool) (name_index : Nat) : Option (Nat × ConstantPool) :=
  let index := p.entries.length
  if index ≥ 65535 then none
  else some (index + 1, ⟨p.entries ++ [.Class name_index]⟩)

/-- Model of `ConstantPool::add_string` (cap-checked, like `add_utf8`). -/
def add_string (p : ConstantPool) (utf8_index : Nat) : Option (Nat × ConstantPool) :=
  let index := p.entries.length
  if index ≥ 65535 then none
  else some (index + 1, ⟨p.entries ++ [.String utf8_index]⟩)

/-- Model of `ConstantPool::add_fieldref` (cap-checked, like `add_utf8`). -/
def add_fieldref (p : ConstantPool) (class_index name_and_type_index : Nat) :
    Option (Nat × ConstantPool) :=
  let index := p.entries.length
  if index ≥ 65535 then none
  else some (index + 1, ⟨p.entries ++ [.Fieldref class_index name_and_type_index]⟩)

/-- Model of `ConstantPool::add_methodref`.  The source performs no cap
check; the returned index is `index as u16 + 1` with wrapping. -/
def add_methodref (p : ConstantPool) (class_index name_and_type_index : Nat) :
    Nat × ConstantPool :=
  (u16IndexSucc p.entries.length, ⟨p.entries ++ [.Methodref class_index name_and_type_index]⟩)

/-- Model of `ConstantPool::add_name_and_type` (no cap check). -/
def add_name_and_type (p : ConstantPool) (name_index descriptor_index : Nat) :
    Nat × ConstantPool :=
  (u16IndexSucc p.entries.length, ⟨p.entries ++ [.NameAndType name_index descriptor_index]⟩)

/-- Model of `ConstantPool::add_integer` (no cap check). -/
def add_integer (p : ConstantPool) (value : Int) : Nat × ConstantPool :=
  (u16IndexSucc p.entries.length, ⟨p.entries ++ [.Integer value]⟩)

/-- Model of `ConstantPool::add_float` (no cap check). -/
def add_float (p : ConstantPool) (value : Rat) : Nat × ConstantPool :=
  (u16IndexSucc p.entries.length, ⟨p.entries ++ [.Float value]⟩)

/-- Model of `ConstantPool::add_long` (no cap check): pushes the value and a
`Placeholder` for the second slot of the 8-byte constant. -/
def add_long (p : ConstantPool) (value : Int) : Nat × ConstantPool :=
  (u16IndexSucc p.entries.length, ⟨p.entries ++ [.Long value, .Placeholder]⟩)

/-- Model of `ConstantPool::add_double` (no cap check): pushes the value and
a `Placeholder` for the second slot of the 8-byte constant. -/
def add_double (p : ConstantPool) (value : Rat) : Nat × ConstantPool :=
  (u16IndexSucc p.entries.length, ⟨p.entries ++ [.Double value, .Placeholder]⟩)

/-- Model of `ConstantPool::add_placeholder` (no cap check). -/
def add_placeholder (p : ConstantPool) : Nat × ConstantPool :=
  (u16IndexSucc p.entries.length, ⟨p.entries ++ [.Placeholder]⟩)

end ConstantPool

/-- Model of `JvmInstruction` (src/jvm/jvm_types.rs).  Immediates keep the
Rust integer widths: `u16` and `u8` immediates are `Nat` (values < 2^16,
resp. < 2^8, per `WfInstr`), `i8`/`i16` immediates are `Int`. -/
inductive JvmInstruction where
  | Ldc (index : Nat)
  | Ldc2W (index : Nat)
  | IconstM1 | Iconst0 | Iconst1 | Iconst2 | Iconst3 | Iconst4 | Iconst5
  | Lconst0 | Lconst1
  | Bipush (value : Int)
  | Sipush (value : Int)
  | Pop | Dup | Swap
  | Iadd | Isub | Imul | Idiv | Irem
  | Dadd | Dsub | Dmul | Ddiv
  | I2d | D2i
  | Ifeq (offset : Nat) | Ifne (offset : Nat) | Iflt (offset : Nat)
  | Ifge (offset : Nat) | Ifgt (offset : Nat) | Ifle (offset : Nat)
  | Goto (offset : Nat)
  | Iload (index : Nat) | Iload0 | Iload1 | Iload2 | Iload3
  | Istore (index : Nat) | Istore0 | Istore1 | Istore2 | Istore3
  | Aload (index : Nat) | Aload0 | Aload1 | Aload2 | Aload3
  | Astore (index : Nat) | Astore0 | Astore1 | Astore2 | Astore3
  | Dload (index : Nat) | Dload0 | Dload1 | Dload2 | Dload3
  | Dstore (index : Nat) | Dstore0 | Dstore1 | Dstore2 | Dstore3
  | Lload (index : Nat) | Lload0 | Lload1 | Lload2 | Lload3
  | Lstore (index : Nat) | Lstore0 | Lstore1 | Lstore2 | Lstore3
  | Invokevirtual (index : Nat)
  | Invokestatic (index : Nat)
  | Invokespecial (index : Nat)
  | Invokedynamic (index : Nat)
  | New (index : Nat)
  | Return | Ireturn
  | Getstatic (index : Nat)
  | Dconst0 | Dconst1
  | Nop

/-- Rust-type-level well-formedness of an instruction's immediates: each
immediate lies in the range of its declared Rust integer type. -/
def WfInstr : JvmInstruction → Prop
  | .Ldc i | .Ldc2W i | .Ifeq i | .Ifne i | .Iflt i | .Ifge i | .Ifgt i | .Ifle i
  | .Goto i | .Invokevirtual i | .Invokestatic i | .Invokespecial i
  | .Invokedynamic i | .New i | .Getstatic i => i < 65536
  | .Iload i | .Istore i | .Aload i | .Astore i
  | .Dload i | .Dstore i | .Lload i | .Lstore i => i < 256
  | .Bipush v => -128 ≤ v ∧ v < 128
  | .Sipush v => -32768 ≤ v ∧ v < 32768
  | _ => True

instance : DecidablePred WfInstr := by
  intro i
  unfold WfInstr
  cases i <;> exact inferInstance

/-- Big-endian bytes of a `u16` value (`u16::to_be_bytes`). -/
def u16be (n : Nat) : List Nat :=
  [n / 256, n % 256]

/-- Value of `v as u8` for an `i8` value `v`: the two's-complement byte. -/
def i8AsU8 (v : Int) : Nat :=
  (v % 256).toNat

/-- Value of `v as u16` for an `i16` value `v`: the two's-complement 16-bit
pattern. -/
def i16AsU16 (v : Int) : Nat :=
  (v % 65536).toNat

/-- Model of `JavaClassGenerator::instructions_to_bytes`
(src/jvm/java_class_generator.rs, lines 388-452) for one instruction: the
byte(s) the writer appends for it.  The `Ldc` arm truncates the `u16` pool
index with `index as u8`, exactly as the source does; the final catch-all arm
is the source's `_ => bytes.push(0x00)` fallback for instructions the writer
does not support. -/
def encodeInstr : JvmInstruction → List Nat
  | .Iconst0 => [0x03]
  | .Iconst1 => [0x04]
  | .Iconst2 => [0x05]
  | .Iconst3 => [0x06]
  | .Iconst4 => [0x07]
  | .Iconst5 => [0x08]
  | .IconstM1 => [0x02]
  | .Bipush v => [0x10, i8AsU8 v]
  | .Sipush v => 0x11 :: u16be (i16AsU16 v)
  | .Ldc index => [0x12, index % 256]
  | .Dup => [0x59]
  | .Pop => [0x57]
  | .Swap => [0x5F]
  | .Iadd => [0x60]
  | .Isub => [0x64]
  | .Imul => [0x68]
  | .Idiv => [0x6C]
  | .Irem => [0x70]
  | .Dadd => [0x63]
  | .Dsub => [0x67]
  | .Dmul => [0x6B]
  | .Ddiv => [0x6F]
  | .I2d => [0x87]
  | .D2i => [0x8E]
  | .Dconst0 => [0x0E]
  | .Dconst1 => [0x0F]
  | .Getstatic index => 0xB2 :: u16be index
  | .Invokestatic index => 0xB8 :: u16be index
  | .Invokevirtual index => 0xB6 :: u16be index
  | .Return => [0xB1]
  | .Ireturn => [0xAC]
  | .Nop => [0x00]
  | _ => [0x00]

/-- Model of `JavaClassGenerator::instructions_to_bytes` on an instruction
stream: the concatenation of the per-instruction encodings, in order. -/
def instructions_to_bytes (instructions : List JvmInstruction) : List Nat :=
  instructions.flatMap encodeInstr

/-- The instruction stream the writer actually represents: instructions the
writer does not support are replaced by `Nop` (they are emitted as the `nop`
byte `0x00`), all others are kept. -/
def writerNormalize : JvmInstruction → JvmInstruction
  | .Iconst0 => .Iconst0
  | .Iconst1 => .Iconst1
  | .Iconst2 => .Iconst2
  | .Iconst3 => .Iconst3
  | .Iconst4 => .Iconst4
  | .Iconst5 => .Iconst5
  | .IconstM1 => .IconstM1
  | .Bipush v => .Bipush v
  | .Sipush v => .Sipush v
  | .Ldc index => .Ldc index
  | .Dup => .Dup
  | .Pop => .Pop
  | .Swap => .Swap
  | .Iadd => .Iadd
  | .Isub => .Isub
  | .Imul => .Imul
  | .Idiv => .Idiv
  | .Irem => .Irem
  | .Dadd => .Dadd
  | .Dsub => .Dsub
  | .Dmul => .Dmul
  | .Ddiv => .Ddiv
  | .I2d => .I2d
  | .D2i => .D2i
  | .Dconst0 => .Dconst0
  | .Dconst1 => .Dconst1
  | .Getstatic index => .Getstatic index
  | .Invokestatic index => .Invokestatic index
  | .Invokevirtual index => .Invokevirtual index
  | .Return => .Return
  | .Ireturn => .Ireturn
  | .Nop => .Nop
  | _ => .Nop

/-- Value of `b as i8` for a byte `b < 256`: two's-complement decoding. -/
def byteAsI8 (b : Nat) : Int :=
  if b < 128 then (b : Int) else (b : Int) - 256

/-- Value of `n as i16` for a 16-bit value `n < 65536`: two's-complement
decoding. -/
def u16AsI16 (n : Nat) : Int :=
  if n < 32768 then (n : Int) else (n : Int) - 65536

/-- Big-endian `u16` from two bytes: `((b1 as u16) << 8) | (b2 as u16)`.
For `b2 < 256` (always true of a byte) the bitwise or coincides with
addition, which is how it is written here. -/
def u16FromBytes (b1 b2 : Nat) : Nat :=
  b1 * 256 + b2

/-- Model of `parse_bytecode` (src/jvm/class_file_parser.rs, lines 274-564).
The byte stream is consumed front-to-back; each opcode either maps to an
instruction (reading its big-endian immediates, with an `InvalidStackState`
error when the stream is too short), or — for an unknown opcode — is skipped
with only a warning, emitting no instruction and consuming no immediates. -/
def parse_bytecode : List Nat → Except RtError (List JvmInstruction)
  | [] => .ok []
  | op :: rest =>
    match op, rest with
    | 0x00, rest => (parse_bytecode rest).map (.Nop :: ·)
    | 0x02, rest => (parse_bytecode rest).map (.IconstM1 :: ·)
    | 0x03, rest => (parse_bytecode rest).map (.Iconst0 :: ·)
    | 0x04, rest => (parse_bytecode rest).map (.Iconst1 :: ·)
    | 0x05, rest => (parse_bytecode rest).map (.Iconst2 :: ·)
    | 0x06, rest => (parse_bytecode rest).map (.Iconst3 :: ·)
    | 0x07, rest => (parse_bytecode rest).map (.Iconst4 :: ·)
    | 0x08, rest => (parse_bytecode rest).map (.Iconst5 :: ·)
    | 0x10, [] => .error .InvalidStackState
    | 0x10, b :: rest => (parse_bytecode rest).map (.Bipush (byteAsI8 b) :: ·)
    | 0x11, [] => .error .InvalidStackState
    | 0x11, [_] => .error .InvalidStackState
    | 0x11, b1 :: b2 :: rest =>
      (parse_bytecode rest).map (.Sipush (u16AsI16 (u16FromBytes b1 b2)) :: ·)
    | 0x12, [] => .error .InvalidStackState
    | 0x12, b :: rest => (parse_bytecode rest).map (.Ldc b :: ·)
    | 0x14, [] => .error .InvalidStackState
    | 0x14, [_] => .error .InvalidStackState
    | 0x14, b1 :: b2 :: rest =>
      (parse_bytecode rest).map (.Ldc2W (u16FromBytes b1 b2) :: ·)
    | 0x15, [] => .error .InvalidStackState
    | 0x15, b :: rest => (parse_bytecode rest).map (.Iload b :: ·)
    | 0x1A, rest => (parse_bytecode rest).map (.Iload0 :: ·)
    | 0x1B, rest => (parse_bytecode rest).map (.Iload1 :: ·)
    | 0x1C, rest => (parse_bytecode rest).map (.Iload2 :: ·)
    | 0x1D, rest => (parse_bytecode rest).map (.Iload3 :: ·)
    | 0x19, [] => .error .InvalidStackState
    | 0x19, b :: rest => (parse_bytecode rest).map (.Aload b :: ·)
    | 0x2A, rest => (parse_bytecode rest).map (.Aload0 :: ·)
    | 0x2B, rest => (parse_bytecode rest).map (.Aload1 :: ·)
    | 0x2C, rest => (parse_bytecode rest).map (.Aload2 :: ·)
    | 0x2D, rest => (parse_bytecode rest).map (.Aload3 :: ·)
    | 0x3A, [] => .error .InvalidStackState
    | 0x3A, b :: rest => (parse_bytecode rest).map (.Astore b :: ·)
    | 0x4B, rest => (parse_bytecode rest).map (.Astore0 :: ·)
    | 0x4C, rest => (parse_bytecode rest).map (.Astore1 :: ·)
    | 0x4D, rest => (parse_bytecode rest).map (.Astore2 :: ·)
    | 0x4E, rest => (parse_bytecode rest).map (.Astore3 :: ·)
    | 0x36, [] => .error .InvalidStackState
    | 0x36, b :: rest => (parse_bytecode rest).map (.Istore b :: ·)
    | 0x3B, rest => (parse_bytecode rest).map (.Istore0 :: ·)
    | 0x3C, rest => (parse_bytecode rest).map (.Istore1 :: ·)
    | 0x3D, rest => (parse_bytecode rest).map (.Istore2 :: ·)
    | 0x3E, rest => (parse_bytecode rest).map (.Istore3 :: ·)
    | 0x57, rest => (parse_bytecode rest).map (.Pop :: ·)
    | 0x59, rest => (parse_bytecode rest).map (.Dup :: ·)
    | 0x5F, rest => (parse_bytecode rest).map (.Swap :: ·)
    | 0x60, rest => (parse_bytecode rest).map (.Iadd :: ·)
    | 0x64, rest => (parse_bytecode rest).map (.Isub :: ·)
    | 0x68, rest => (parse_bytecode rest).map (.Imul :: ·)
    | 0x6C, rest => (parse_bytecode rest).map (.Idiv :: ·)
    | 0x70, rest => (parse_bytecode rest).map (.Irem :: ·)
    | 0x63, rest => (parse_bytecode rest).map (.Dadd :: ·)
    | 0x67, rest => (parse_bytecode rest).map (.Dsub :: ·)
    | 0x6B, rest => (parse_bytecode rest).map (.Dmul :: ·)
    | 0x6F, rest => (parse_bytecode rest).map (.Ddiv :: ·)
    | 0x87, rest => (parse_bytecode rest).map (.I2d :: ·)
    | 0x8E, rest => (parse_bytecode rest).map (.D2i :: ·)
    | 0x1E, rest => (parse_bytecode rest).map (.Lload0 :: ·)
    | 0x1F, rest => (parse_bytecode rest).map (.Lload1 :: ·)
    | 0x20, rest => (parse_bytecode rest).map (.Lload2 :: ·)
    | 0x21, rest => (parse_bytecode rest).map (.Lload3 :: ·)
    | 0x18, [] => .error .InvalidStackState
    | 0x18, b :: rest => (parse_bytecode rest).map (.Dload b :: ·)
    | 0x26, rest => (parse_bytecode rest).map (.Dload0 :: ·)
    | 0x27, rest => (parse_bytecode rest).map (.Dload1 :: ·)
    | 0x28, rest => (parse_bytecode rest).map (.Dload2 :: ·)
    | 0x29, rest => (parse_bytecode rest).map (.Dload3 :: ·)
    | 0x39, [] => .error .InvalidStackState
    | 0x39, b :: rest => (parse_bytecode rest).map (.Dstore b :: ·)
    | 0x47, rest => (parse_bytecode rest).map (.Dstore0 :: ·)
    | 0x48, rest => (parse_bytecode rest).map (.Dstore1 :: ·)
    | 0x49, rest => (parse_bytecode rest).map (.Dstore2 :: ·)
    | 0x4A, rest => (parse_bytecode rest).map (.Dstore3 :: ·)
    | 0x3F, rest => (parse_bytecode rest).map (.Lstore0 :: ·)
    | 0x40, rest => (parse_bytecode rest).map (.Lstore1 :: ·)
    | 0x41, rest => (parse_bytecode rest).map (.Lstore2 :: ·)
    | 0x42, rest => (parse_bytecode rest).map (.Lstore3 :: ·)
    | 0xA7, [] => .error .InvalidStackState
    | 0xA7, [_] => .error .InvalidStackState
    | 0xA7, b1 :: b2 :: rest =>
      (parse_bytecode rest).map (.Goto (u16FromBytes b1 b2) :: ·)
    | 0x99, [] => .error .InvalidStackState
    | 0x99, [_] => .error .InvalidStackState
    | 0x99, b1 :: b2 :: rest =>
      (parse_bytecode rest).map (.Ifeq (u16FromBytes b1 b2) :: ·)
    | 0x9A, [] => .error .InvalidStackState
    | 0x9A, [_] => .error .InvalidStackState
    | 0x9A, b1 :: b2 :: rest =>
      (parse_bytecode rest).map (.Ifne (u16FromBytes b1 b2) :: ·)
    | 0x9B, [] => .error .InvalidStackState
    | 0x9B, [_] => .error .InvalidStackState
    | 0x9B, b1 :: b2 :: rest =>
      (parse_bytecode rest).map (.Iflt (u16FromBytes b1 b2) :: ·)
    | 0x9C, [] => .error .InvalidStackState
    | 0x9C, [_] => .error .InvalidStackState
    | 0x9C, b1 :: b2 :: rest =>
      (parse_bytecode rest).map (.Ifge (u16FromBytes b1 b2) :: ·)
    | 0x9D, [] => .error .InvalidStackState
    | 0x9D, [_] => .error .InvalidStackState
    | 0x9D, b1 :: b2 :: rest =>
      (parse_bytecode rest).map (.Ifgt (u16FromBytes b1 b2) :: ·)
    | 0x9E, [] => .error .InvalidStackState
    | 0x9E, [_] => .error .InvalidStackState
    | 0x9E, b1 :: b2 :: rest =>
      (parse_bytecode rest).map (.Ifle (u16FromBytes b1 b2) :: ·)
    | 0xB1, rest => (parse_bytecode rest).map (.Return :: ·)
    | 0xAC, rest => (parse_bytecode rest).map (.Ireturn :: ·)
    | 0xB2, [] => .error .InvalidStackState
    | 0xB2, [_] => .error .InvalidStackState
    | 0xB2, b1 :: b2 :: rest =>
      (parse_bytecode rest).map (.Getstatic (u16FromBytes b1 b2) :: ·)
    | 0xB6, [] => .error .InvalidStackState
    | 0xB6, [_] => .error .InvalidStackState
    | 0xB6, b1 :: b2 :: rest =>
      (parse_bytecode rest).map (.Invokevirtual (u16FromBytes b1 b2) :: ·)
    | 0xB8, [] => .error .InvalidStackState
    | 0xB8, [_] => .error .InvalidStackState
    | 0xB8, b1 :: b2 :: rest =>
      (parse_bytecode rest).map (.Invokestatic (u16FromBytes b1 b2) :: ·)
    | 0x0B, rest => (parse_bytecode rest).map (.Lconst0 :: ·)
    | 0x0E, rest => (parse_bytecode rest).map (.Dconst0 :: ·)
    | 0x0F, rest => (parse_bytecode rest).map (.Dconst1 :: ·)
    | 0xB7, [] => .error .InvalidStackState
    | 0xB7, [_] => .error .InvalidStackState
    | 0xB7, b1 :: b2 :: rest =>
      (parse_bytecode rest).map (.Invokespecial (u16FromBytes b1 b2) :: ·)
    | 0xBB, [] => .error .InvalidStackState
    | 0xBB, [_] => .error .InvalidStackState
    | 0xBB, b1 :: b2 :: rest =>
      (parse_bytecode rest).map (.New (u16FromBytes b1 b2) :: ·)
    | _, rest => parse_bytecode rest

/-- The extra side condition the round-trip actually needs: `Ldc` immediates
must fit in the single byte the writer emits for them. -/
def LdcFits : JvmInstruction → Prop
  | .Ldc index => index < 256
  | _ => True

instance : DecidablePred LdcFits := by
  intro i
  unfold LdcFits
  cases i <;> exact inferInstance

/-- Helper of `count_method_parameters`: the primitive-descriptor letters
`B C D F I J S Z`, each of which counts as one parameter. -/
def isPrimChar (c : Char) : Bool :=
  c = 'B' || c = 'C' || c = 'D' || c = 'F' || c = 'I' || c = 'J' || c = 'S' || c = 'Z'

/-- Model of the `for ch in chars.by_ref() { if ch == '(' { break } }` prefix
loop of `count_method_parameters`: drop characters up to and including the
first opening parenthesis. -/
def dropToParen : List Char → List Char
  | [] => []
  | c :: rest => if c = '(' then rest else dropToParen rest

/-- Model of the `for c in chars.by_ref() { if c == ';' { break } }` loop of
`count_method_parameters`: drop characters up to and including the first
semicolon. -/
def dropToSemi : List Char → List Char
  | [] => []
  | c :: rest => if c = ';' then rest else dropToSemi rest

theorem dropToSemi_length_le (l : List Char) : (dropToSemi l).length ≤ l.length := by
  induction l with
  | nil => simp [dropToSemi]
  | cons c rest ih =>
    simp only [dropToSemi]
    split
    · simp
    · exact Nat.le_trans ih (Nat.le_succ _)

/-- Model of the parameter-counting loop of `count_method_parameters`
(src/jvm/jvm_compatible_vm.rs, lines 2648-2681), run on the characters after
the opening parenthesis. -/
def countParamsLoop : List Char → Nat
  | [] => 0
  | c :: rest =>
    if c = ')' then 0
    else if isPrimChar c then 1 + countParamsLoop rest
    else if c = 'L' then 1 + countParamsLoop (dropToSemi rest)
    else if c = '[' then
      match rest with
      | [] => 0
      | c2 :: rest2 =>
        if isPrimChar c2 then 1 + countParamsLoop rest2
        else if c2 = 'L' then 1 + countParamsLoop (dropToSemi rest2)
        else countParamsLoop rest2
    else countParamsLoop rest
termination_by l => l.length
decreasing_by
  all_goals simp only [List.length_cons]
  all_goals (try omega)
  all_goals exact Nat.lt_of_le_of_lt (dropToSemi_length_le rest) (by omega)

/-- Model of `count_method_parameters` (src/jvm/jvm_compatible_vm.rs, lines
2636-2684): skip to the opening parenthesis, then count parameters until the
closing parenthesis. -/
def count_method_parameters (descriptor : String) : Nat :=
  countParamsLoop (dropToParen descriptor.data)

/-- Grammar of JVM field types, used to state what a semantically valid
parameter list is: a primitive letter, an `L…;` class reference, or an
array type. -/
inductive FieldType where
  | prim (c : Char)
  | obj (name : List Char)
  | arr (t : FieldType)

/-- Validity of a field type: primitive letters come from the `B C D F I J S
Z` alphabet, and class names contain no semicolon (the terminator). -/
def WfField : FieldType → Prop
  | .prim c => isPrimChar c = true
  | .obj name => ';' ∉ name
  | .arr t => WfField t

/-- Decision procedure for `WfField`. -/
def decWfField : (t : FieldType) → Decidable (WfField t)
  | .prim c => inferInstanceAs (Decidable (isPrimChar c = true))
  | .obj name => inferInstanceAs (Decidable (';' ∉ name))
  | .arr t => decWfField t

instance : DecidablePred WfField := decWfField

/-- Characters of a field type in descriptor syntax. -/
def encodeField : FieldType → List Char
  | .prim c => [c]
  | .obj name => 'L' :: name ++ [';']
  | .arr t => '[' :: encodeField t

/-- Characters of a full method descriptor with parameter types `ts` and
return-type characters `ret`. -/
def encodeDescriptor (ts : List FieldType) (ret : List Char) : List Char :=
  '(' :: ts.flatMap encodeField ++ ')' :: ret

/-- Model of `MethodInfo` (src/jvm/class_file_parser.rs). -/
structure MethodInfo where
  name : String
  descriptor : String
  bytecode : List JvmInstruction
  max_locals : Nat
  max_stack : Nat

/-- Release-profile value of `(x - 1) as usize` for a `u16` value `x`: the
subtraction wraps modulo 2^16 (so index 0 becomes 65535). -/
def u16Pred (x : Nat) : Nat :=
  (x + 65535) % 65536

/-- Model of `check_is_main_method` (src/jvm/class_file_parser.rs, lines
566-593).  Returns `(is_main_method, is_preferred)`: the method is `main`
with descriptor `()V` (preferred, Kotlin style) or
`([Ljava/lang/String;)V` (fallback, Java style). -/
def check_is_main_method (constant_pool : ConstantPool) (name_index descriptor_index : Nat) :
    Bool × Bool :=
  let entries := constant_pool.entries
  match entries.get? (u16Pred name_index) with
  | some (.Utf8 name) =>
    if name ≠ "main" then (false, false)
    else
      match entries.get? (u16Pred descriptor_index) with
      | some (.Utf8 descriptor) =>
        if descriptor = "()V" then (true, true)
        else if descriptor = "([Ljava/lang/String;)V" then (true, false)
        else (false, false)
      | _ => (false, false)
  | _ => (false, false)

/-- Model of `get_utf8_from_pool` (src/jvm/class_file_parser.rs, lines
663-678). -/
def get_utf8_from_pool (constant_pool : ConstantPool) (index : Nat) : String :=
  if index = 0 then ""
  else
    match constant_pool.entries.get? (index - 1) with
    | some (.Utf8 s) => s
    | _ => ""

/-- A method record of the class file as it stands after the byte-level
attribute decoding inside `ClassFileParser::parse`: the method's name and
descriptor indices and the decoded `Code` attribute (empty `bytecode` when
the method had no `Code` attribute). -/
structure RawMethod where
  name_index : Nat
  descriptor_index : Nat
  bytecode : List JvmInstruction
  max_locals : Nat
  max_stack : Nat

/-- The selection state threaded through the method loop of
`ClassFileParser::parse`: the chosen main-method body and the methods map. -/
structure ParseSelection where
  main_method_bytecode : List JvmInstruction
  max_locals : Nat
  max_stack : Nat
  methods : List (String × MethodInfo)

/-- Model of one iteration of the method loop of `ClassFileParser::parse`
(src/jvm/class_file_parser.rs, lines 184-262), restricted to the recording
and main-method-selection logic (lines 244-261) over an already-decoded
method record: a method with a body is stored in the methods map, and it
becomes the main method when `check_is_main_method` accepts it and either no
main has been selected yet or it is the preferred (`()V`) form. -/
def processMethod (constant_pool : ConstantPool) (st : ParseSelection) (m : RawMethod) :
    ParseSelection :=
  let method_name := get_utf8_from_pool constant_pool m.name_index
  let method_descriptor := get_utf8_from_pool constant_pool m.descriptor_index
  let flags := check_is_main_method constant_pool m.name_index m.descriptor_index
  let is_main_method := flags.1
  let is_preferred := flags.2
  if m.bytecode.isEmpty then st
  else
    let method_info : MethodInfo :=
      ⟨method_name, method_descriptor, m.bytecode, m.max_locals, m.max_stack⟩
    let st₁ := { st with methods := (method_name, method_info) :: st.methods }
    if is_main_method && (st₁.main_method_bytecode.isEmpty || is_preferred) then
      { st₁ with
        main_method_bytecode := m.bytecode
        max_locals := m.max_locals
        max_stack := m.max_stack }
    else st₁

/-- Model of the whole method loop of `ClassFileParser::parse`: fold the
per-method step over the decoded method records, starting from the empty
selection. -/
def selectMethods (constant_pool : ConstantPool) (ms : List RawMethod) : ParseSelection :=
  ms.foldl (processMethod constant_pool) ⟨[], 0, 0, []⟩

/-- Acceptance predicate used to state the selection rule: a method record
that `check_is_main_method` accepts and that has a code body. -/
def isAcceptedMain (constant_pool : ConstantPool) (m : RawMethod) : Bool :=
  (check_is_main_method constant_pool m.name_index m.descriptor_index).1 && !m.bytecode.isEmpty

/-- Preference predicate used to state the selection rule: an accepted main
method of the preferred (`()V`) form with a code body. -/
def isPreferredMain (constant_pool : ConstantPool) (m : RawMethod) : Bool :=
  (check_is_main_method constant_pool m.name_index m.descriptor_index).2 && !m.bytecode.isEmpty

/-- The entry-point selection rule the parser's fold actually implements: the
last preferred (`()V`) main with a code body wins; failing any preferred
main, the first accepted main with a code body wins; otherwise the main
bytecode stays empty. -/
def mainSelectionSpec (constant_pool : ConstantPool) (ms : List RawMethod) :
    List JvmInstruction :=
  match (ms.filter (isPreferredMain constant_pool)).getLast? with
  | some m => m.bytecode
  | none =>
    match (ms.filter (isAcceptedMain constant_pool)).head? with
    | some m => m.bytecode
    | none => []

/-- Outcome of running a piece of the interpreter.  `ok` and `err` are the
source's `Ok`/`Err`; `crash` models a Rust panic (out-of-bounds `Vec`
indexing, division overflow); `nofuel` means the fuel given to the model ran
out, which is how the model renders computations of the source that do not
return (unbounded recursion). -/
inductive Res (α : Type) where
  | ok (a : α)
  | err (e : RtError)
  | crash
  | nofuel
deriving DecidableEq, Repr

/-- Bind for `Res`, propagating `err`, `crash` and `nofuel`. -/
def Res.bind : Res α → (α → Res β) → Res β
  | .ok a, f => f a
  | .err e, _ => .err e
  | .crash, _ => .crash
  | .nofuel, _ => .nofuel

instance : Monad Res where
  pure := .ok
  bind := Res.bind

/-- Lift a Rust `Result` (modelled as `Except`) into `Res`, as the `?`
operator does. -/
def Res.ofExcept : Except RtError α → Res α
  | .ok a => .ok a
  | .error e => .err e

/-- Two's-complement wrap of an `Int` into the `i32` range: the value Rust's
release-profile `i32` arithmetic produces on overflow. -/
def wrap32 (x : Int) : Int :=
  (x + 2147483648) % 4294967296 - 2147483648

/-- Truncation of a rational toward zero (the rounding of Rust's float-to-int
`as` casts). -/
def ratTrunc (q : Rat) : Int :=
  if 0 ≤ q then q.floor else q.ceil

/-- Value of `f as i32` for a float `f`: truncate toward zero and saturate to
the `i32` range. -/
def ratToI32 (q : Rat) : Int :=
  let t := ratTrunc q
  if t < -2147483648 then -2147483648
  else if t > 2147483647 then 2147483647
  else t

/-- Value of `f as i64` for a float `f`: truncate toward zero and saturate to
the `i64` range. -/
def ratToI64 (q : Rat) : Int :=
  let t := ratTrunc q
  if t < -9223372036854775808 then -9223372036854775808
  else if t > 9223372036854775807 then 9223372036854775807
  else t

/-- Rounding of `f64::round`: to the nearest integer, ties away from zero. -/
def ratRound (q : Rat) : Int :=
  if 0 ≤ q then (q + 1/2).floor else -((-q + 1/2).floor)

/-- Value of `v.abs()` for an `i32` value: release-profile wrapping absolute
value (`i32::MIN.abs()` wraps back to `i32::MIN`). -/
def i32abs (v : Int) : Int :=
  wrap32 (if v < 0 then -v else v)

/-- Model of `JvmValue` (src/jvm/jvm_compatible_vm.rs).  `i32`/`i64` are
`Int`, `f32`/`f64` are `Rat`, `u16` chars and heap ids are `Nat`. -/
inductive JvmValue where
  | Int (i : Int)
  | Float (f : Rat)
  | Long (l : Int)
  | Double (d : Rat)
  | Boolean (b : Bool)
  | Char (c : Nat)
  | Reference (r : Option Nat)
  | ReturnAddress (a : Nat)
deriving DecidableEq, Repr

namespace JvmValue

/-- Model of `JvmValue::as_int`. -/
def as_int : JvmValue → Except RtError ℤ
  | .Int i => .ok i
  | .Float f => .ok (ratToI32 f)
  | .Char c => .ok (c : ℤ)
  | .Boolean b => .ok (if b then 1 else 0)
  | _ => .error .InvalidStackState

/-- Model of `JvmValue::as_float` (the `i32 as f32` cast is exact only up to
`f32` precision in Rust; the model keeps the exact value, which no proved
property depends on). -/
def as_float : JvmValue → Except RtError ℚ
  | .Int i => .ok (i : ℚ)
  | .Float f => .ok f
  | _ => .error .InvalidStackState

/-- Model of `JvmValue::as_double` (as with `as_float`, the widening casts
are modelled exactly). -/
def as_double : JvmValue → Except RtError ℚ
  | .Double d => .ok d
  | .Float f => .ok f
  | .Int i => .ok (i : ℚ)
  | .Long l => .ok (l : ℚ)
  | _ => .error .InvalidStackState

/-- Model of `JvmValue::as_char` (`i as u16` truncates two's-complement). -/
def as_char : JvmValue → Except RtError ℕ
  | .Char c => .ok c
  | .Int i => .ok ((i % 65536).toNat)
  | _ => .error .InvalidStackState

/-- Model of `JvmValue::as_boolean`. -/
def as_boolean : JvmValue → Except RtError Bool
  | .Boolean b => .ok b
  | .Int i => .ok (decide (i ≠ 0))
  | _ => .error .InvalidStackState

end JvmValue

/-- Model of `JvmObject` (src/jvm/jvm_compatible_vm.rs): its `HashMap`
of fields is an association list (insert conses, lookup takes the first
match). -/
structure JvmObject where
  class_name : String
  fields : List (String × JvmValue)
deriving DecidableEq, Repr

/-- Lookup in an association list modelling a `HashMap`: first match wins
(inserts cons, so the most recent insert is found). -/
def alistGet? [BEq κ] (m : List (κ × α)) (k : κ) : Option α :=
  (m.find? (fun p => p.1 == k)).map (·.2)

/-- Insert into an association list modelling a `HashMap`: cons the new
binding (it shadows any older binding under `alistGet?`). -/
def alistInsert [BEq κ] (m : List (κ × α)) (k : κ) (v : α) : List (κ × α) :=
  (k, v) :: m

/-- Model of `MethodFrame` (src/jvm/jvm_compatible_vm.rs).  The operand
stack is a list whose HEAD is the top of the stack (the end of the Rust
`Vec`). -/
structure MethodFrame where
  locals : List JvmValue
  operand_stack : List JvmValue
  constant_pool : ConstantPool
  pc : Nat
  bytecode : List JvmInstruction

/-- Model of `ClassFile` (src/jvm/class_file_parser.rs). -/
structure ClassFile where
  constant_pool : ConstantPool
  main_method_bytecode : List JvmInstruction
  max_locals : Nat
  max_stack : Nat
  methods : List (String × MethodInfo)

/-- Model of the `JvmCompatibleVm` state.  The frame stack is a list whose
HEAD is the current (innermost) frame — the end of the Rust `Vec`.  Console
output is modelled by the two accumulated strings `out_text`/`err_text`, and
the process-wide PRNG by the stream `rand_src` that `Math.random` consumes.
The `verbose` flag is omitted: it only gates debug prints. -/
structure Vm where
  frames : List MethodFrame
  heap : List (Nat × JvmObject)
  string_data : List (Nat × String)
  next_object_id : Nat
  max_steps : Nat
  steps : Nat
  current_class : Option ClassFile
  out_text : String
  err_text : String
  rand_src : List Rat

/-- Model of `JvmCompatibleVm::new`. -/
def vmNew : Vm :=
  { frames := []
    heap := []
    string_data := []
    next_object_id := 1
    max_steps := 100000
    steps := 0
    current_class := none
    out_text := ""
    err_text := ""
    rand_src := [] }

/-- The external operations the interpreter uses whose exact values a
rational model cannot give: transcendental `f64` math, float formatting and
float parsing.  Every theorem below holds for ANY choice of these. -/
structure ExternOps where
  sqrtOp : Rat → Rat
  sinOp : Rat → Rat
  cosOp : Rat → Rat
  tanOp : Rat → Rat
  lnOp : Rat → Rat
  expOp : Rat → Rat
  powOp : Rat → Rat → Rat
  f64ToString : Rat → String
  f32ToString : Rat → String
  parseF64 : String → Option Rat

/-- A trivial instantiation of `ExternOps`, used only to instantiate
universally quantified theorems at concrete inputs. -/
def opsUnit : ExternOps :=
  { sqrtOp := fun _ => 0
    sinOp := fun _ => 0
    cosOp := fun _ => 0
    tanOp := fun _ => 0
    lnOp := fun _ => 0
    expOp := fun _ => 0
    powOp := fun _ _ => 0
    f64ToString := fun _ => ""
    f32ToString := fun _ => ""
    parseF64 := fun _ => none }

/-- Model of `JvmCompatibleVm::create_string_object` (src/jvm/
jvm_compatible_vm.rs, lines 184-201): allocate a fresh object id, record a
`java/lang/String` object whose `length` field is the byte length of the
text (`value.len() as i32`), and store the text in the string-data table. -/
def Vm.create_string_object (vm : Vm) (value : String) : Nat × Vm :=
  let object_id := vm.next_object_id
  let fields := alistInsert [] "length" (JvmValue.Int (wrap32 value.utf8ByteSize))
  let string_object : JvmObject := ⟨"java/lang/String", fields⟩
  (object_id,
    { vm with
      next_object_id := object_id + 1
      heap := alistInsert vm.heap object_id string_object
      string_data := alistInsert vm.string_data object_id value })

/-- Model of `JvmCompatibleVm::create_printstream_object` (src/jvm/
jvm_compatible_vm.rs, lines 1418-1448): allocate a `java/io/PrintStream`
object with a null `type` field, then re-insert it with an `is_stderr` flag
field of `Int 1` for `"stderr"` and `Int 0` otherwise. -/
def Vm.create_printstream_object (vm : Vm) (stream_type : String) : Nat × Vm :=
  let object_id := vm.next_object_id
  let fields := alistInsert [] "type" (JvmValue.Reference none)
  let printstream_object : JvmObject := ⟨"java/io/PrintStream", fields⟩
  let heap₁ := alistInsert vm.heap object_id printstream_object
  let flag : JvmValue := if stream_type = "stderr" then .Int 1 else .Int 0
  let printstream_object₂ : JvmObject :=
    ⟨"java/io/PrintStream", alistInsert fields "is_stderr" flag⟩
  (object_id,
    { vm with
      next_object_id := object_id + 1
      heap := alistInsert heap₁ object_id printstream_object₂ })

/-- Model of `JvmCompatibleVm::load_constant_from_pool` (src/jvm/
jvm_compatible_vm.rs, lines 1296-1322).  The nested `&entries[...]` access
for a `String` entry's `Utf8` target is an unchecked index: out of bounds is
a panic (`crash`). -/
def Vm.load_constant_from_pool (vm : Vm) (index : Nat) : Res (JvmValue × Vm) :=
  match vm.frames with
  | [] => .err .CallStackUnderflow
  | frame :: _ =>
    let entries := frame.constant_pool.entries
    let actual_index := u16Pred index
    if actual_index ≥ entries.length then .err .InvalidStackState
    else
      match entries.get? actual_index with
      | none => .crash
      | some (.Integer i) => .ok (.Int i, vm)
      | some (.Float f) => .ok (.Float f, vm)
      | some (.Long l) => .ok (.Long l, vm)
      | some (.Double d) => .ok (.Double d, vm)
      | some (.String utf8_index) =>
        match entries.get? (u16Pred utf8_index) with
        | none => .crash
        | some (.Utf8 s) =>
          let r := vm.create_string_object s
          .ok (.Reference (some r.1), r.2)
        | some _ => .err .InvalidStackState
      | some _ => .err .InvalidStackState

/-- Model of `JvmCompatibleVm::resolve_static_field_numeric` (src/jvm/
jvm_compatible_vm.rs, lines 1401-1416): the legacy numeric fallback. -/
def Vm.resolve_static_field_numeric (vm : Vm) (field_ref : Nat) : Res (JvmValue × Vm) :=
  match field_ref with
  | 31 =>
    let r := vm.create_printstream_object "stdout"
    .ok (.Reference (some r.1), r.2)
  | 32 =>
    let r := vm.create_printstream_object "stderr"
    .ok (.Reference (some r.1), r.2)
  | _ => .err .InvalidStackState

/-- Model of `JvmCompatibleVm::resolve_static_field` (src/jvm/
jvm_compatible_vm.rs, lines 1342-1399).  Every failure to walk the
`Fieldref → Class/NameAndType → Utf8` chain falls back to the numeric
resolution, EXCEPT an out-of-bounds interior index, which is an unchecked
`&entries[...]` access and therefore a panic (`crash`). -/
def Vm.resolve_static_field (vm : Vm) (field_ref : Nat) : Res (JvmValue × Vm) :=
  match vm.frames with
  | [] => .err .CallStackUnderflow
  | frame :: _ =>
    let entries := frame.constant_pool.entries
    let actual_index := u16Pred field_ref
    if actual_index ≥ entries.length then vm.resolve_static_field_numeric field_ref
    else
      match entries.get? actual_index with
      | none => .crash
      | some (.Fieldref class_index name_and_type_index) =>
        match entries.get? (u16Pred class_index) with
        | none => .crash
        | some (.Class name_index) =>
          match entries.get? (u16Pred name_index) with
          | none => .crash
          | some (.Utf8 class_name) =>
            match entries.get? (u16Pred name_and_type_index) with
            | none => .crash
            | some (.NameAndType name_index₂ _desc_index) =>
              match entries.get? (u16Pred name_index₂) with
              | none => .crash
              | some (.Utf8 field_name) =>
                if class_name = "java/lang/System" ∧ field_name = "out" then
                  let r := vm.create_printstream_object "stdout"
                  .ok (.Reference (some r.1), r.2)
                else if class_name = "java/lang/System" ∧ field_name = "err" then
                  let r := vm.create_printstream_object "stderr"
                  .ok (.Reference (some r.1), r.2)
                else vm.resolve_static_field_numeric field_ref
              | some _ => vm.resolve_static_field_numeric field_ref
            | some _ => vm.resolve_static_field_numeric field_ref
          | some _ => vm.resolve_static_field_numeric field_ref
        | some _ => vm.resolve_static_field_numeric field_ref
      | some _ => vm.resolve_static_field_numeric field_ref

/-- Outcome classification of the `resolve_static_field` chain walk, used to
STATE when the claim's "does not resolve" precondition holds.  It mirrors
the walk of `Vm.resolve_static_field` over the pool alone: `sysOut`/`sysErr`
when the chain reaches `(java/lang/System, out/err)`, `walkCrash` when an
interior index is out of bounds (an unchecked access), and `fallback`
otherwise. -/
inductive StaticWalk where
  | sysOut
  | sysErr
  | fallback
  | walkCrash
deriving DecidableEq, Repr

/-- Chain-walk classifier for a `Getstatic` pool index (the claim-side
rendering of "resolves to a recognized `(java/lang/System, out|err)`
Fieldref chain"). -/
def classifyStaticField (entries : List ConstantPoolEntry) (field_ref : Nat) : StaticWalk :=
  let actual_index := u16Pred field_ref
  if actual_index ≥ entries.length then .fallback
  else
    match entries.get? actual_index with
    | none => .walkCrash
    | some (.Fieldref class_index name_and_type_index) =>
      match entries.get? (u16Pred class_index) with
      | none => .walkCrash
      | some (.Class name_index) =>
        match entries.get? (u16Pred name_index) with
        | none => .walkCrash
        | some (.Utf8 class_name) =>
          match entries.get? (u16Pred name_and_type_index) with
          | none => .walkCrash
          | some (.NameAndType name_index₂ _desc_index) =>
            match entries.get? (u16Pred name_index₂) with
            | none => .walkCrash
            | some (.Utf8 field_name) =>
              if class_name = "java/lang/System" ∧ field_name = "out" then .sysOut
              else if class_name = "java/lang/System" ∧ field_name = "err" then .sysErr
              else .fallback
            | some _ => .fallback
          | some _ => .fallback
        | some _ => .fallback
      | some _ => .fallback
    | some _ => .fallback

/-- Model of `ResolvedMethod` (src/jvm/jvm_compatible_vm.rs, lines 19-88). -/
inductive ResolvedMethod where
  | PrintStreamPrintln
  | PrintStreamPrint
  | PrintStreamPrintlnString
  | PrintStreamPrintlnFloat
  | PrintStreamPrintlnDouble
  | PrintStreamPrintlnBoolean
  | PrintStreamPrintlnChar
  | MathRandom
  | MathMaxInt
  | MathMinInt
  | MathMaxDouble
  | MathMinDouble
  | MathAbs
  | MathAbsDouble
  | MathPow
  | MathSqrt
  | MathFloor
  | MathCeil
  | MathRound
  | MathSin
  | MathCos
  | MathTan
  | MathLog
  | MathExp
  | StringLength
  | StringBuilderAppendString
  | StringBuilderAppendInt
  | StringBuilderAppendDouble
  | StringBuilderToString
  | StringCharAt
  | StringSubstring
  | StringIndexOf
  | StringToUpperCase
  | StringToLowerCase
  | StringTrim
  | StringEquals
  | StringConcat
  | IntegerParseInt
  | IntegerToString
  | IntegerValueOf
  | DoubleParseDouble
  | DoubleToString
  | DoubleValueOf
  | BooleanParseBoolean
  | BooleanToString
  | BooleanValueOf
  | CharacterIsDigit
  | CharacterIsLetter
  | CharacterToUpperCase
  | CharacterToLowerCase
  | Unknown
deriving DecidableEq, Repr

/-- The intrinsic table of `resolve_method_reference` (src/jvm/
jvm_compatible_vm.rs, lines 1156-1290): dispatch on the
`(class name, method name, descriptor)` triple. -/
def intrinsicOf : String × String × String → ResolvedMethod
  | ("java/io/PrintStream", "println", "(I)V") => .PrintStreamPrintln
  | ("java/io/PrintStream", "print", "(Ljava/lang/String;)V") => .PrintStreamPrint
  | ("java/io/PrintStream", "println", "(Ljava/lang/String;)V") => .PrintStreamPrintlnString
  | ("java/io/PrintStream", "println", "(Ljava/lang/Object;)V") => .PrintStreamPrintlnString
  | ("java/io/PrintStream", "println", "(F)V") => .PrintStreamPrintlnFloat
  | ("java/io/PrintStream", "println", "(D)V") => .PrintStreamPrintlnDouble
  | ("java/io/PrintStream", "println", "(Z)V") => .PrintStreamPrintlnBoolean
  | ("java/io/PrintStream", "println", "(C)V") => .PrintStreamPrintlnChar
  | ("java/lang/Math", "random", "()D") => .MathRandom
  | ("java/lang/Math", "max", "(II)I") => .MathMaxInt
  | ("java/lang/Math", "min", "(II)I") => .MathMinInt
  | ("java/lang/Math", "max", "(DD)D") => .MathMaxDouble
  | ("java/lang/Math", "min", "(DD)D") => .MathMinDouble
  | ("java/lang/Math", "abs", "(I)I") => .MathAbs
  | ("java/lang/Math", "abs", "(D)D") => .MathAbsDouble
  | ("java/lang/Math", "pow", "(DD)D") => .MathPow
  | ("java/lang/Math", "sqrt", "(D)D") => .MathSqrt
  | ("java/lang/Math", "floor", "(D)D") => .MathFloor
  | ("java/lang/Math", "ceil", "(D)D") => .MathCeil
  | ("java/lang/Math", "round", "(D)J") => .MathRound
  | ("java/lang/Math", "sin", "(D)D") => .MathSin
  | ("java/lang/Math", "cos", "(D)D") => .MathCos
  | ("java/lang/Math", "tan", "(D)D") => .MathTan
  | ("java/lang/Math", "log", "(D)D") => .MathLog
  | ("java/lang/Math", "exp", "(D)D") => .MathExp
  | ("java/lang/String", "length", "()I") => .StringLength
  | ("java/lang/String", "charAt", "(I)C") => .StringCharAt
  | ("java/lang/String", "substring", "(II)Ljava/lang/String;") => .StringSubstring
  | ("java/lang/String", "indexOf", "(I)I") => .StringIndexOf
  | ("java/lang/String", "toUpperCase", "()Ljava/lang/String;") => .StringToUpperCase
  | ("java/lang/String", "toLowerCase", "()Ljava/lang/String;") => .StringToLowerCase
  | ("java/lang/String", "trim", "()Ljava/lang/String;") => .StringTrim
  | ("java/lang/String", "equals", "(Ljava/lang/Object;)Z") => .StringEquals
  | ("java/lang/String", "concat", "(Ljava/lang/String;)Ljava/lang/String;") => .StringConcat
  | ("java/lang/StringBuilder", "append", "(Ljava/lang/String;)Ljava/lang/StringBuilder;") =>
    .StringBuilderAppendString
  | ("java/lang/StringBuilder", "append", "(I)Ljava/lang/StringBuilder;") =>
    .StringBuilderAppendInt
  | ("java/lang/StringBuilder", "append", "(D)Ljava/lang/StringBuilder;") =>
    .StringBuilderAppendDouble
  | ("java/lang/StringBuilder", "toString", "()Ljava/lang/String;") => .StringBuilderToString
  | ("java/lang/Integer", "parseInt", "(Ljava/lang/String;)I") => .IntegerParseInt
  | ("java/lang/Integer", "toString", "(I)Ljava/lang/String;") => .IntegerToString
  | ("java/lang/Integer", "valueOf", "(I)Ljava/lang/Integer;") => .IntegerValueOf
  | ("java/lang/Double", "parseDouble", "(Ljava/lang/String;)D") => .DoubleParseDouble
  | ("java/lang/Double", "toString", "(D)Ljava/lang/String;") => .DoubleToString
  | ("java/lang/Double", "valueOf", "(D)Ljava/lang/Double;") => .DoubleValueOf
  | ("java/lang/Boolean", "parseBoolean", "(Ljava/lang/String;)Z") => .BooleanParseBoolean
  | ("java/lang/Boolean", "toString", "(Z)Ljava/lang/String;") => .BooleanToString
  | ("java/lang/Boolean", "valueOf", "(Z)Ljava/lang/Boolean;") => .BooleanValueOf
  | ("java/lang/Character", "isDigit", "(C)Z") => .CharacterIsDigit
  | ("java/lang/Character", "isLetter", "(C)Z") => .CharacterIsLetter
  | ("java/lang/Character", "toUpperCase", "(C)C") => .CharacterToUpperCase
  | ("java/lang/Character", "toLowerCase", "(C)C") => .CharacterToLowerCase
  | _ => .Unknown

/-- Model of `JvmCompatibleVm::resolve_method_reference` (src/jvm/
jvm_compatible_vm.rs, lines 1105-1294).  Interior `&entries[...]` accesses
are unchecked: out of bounds is a panic (`crash`). -/
def Vm.resolve_method_reference (vm : Vm) (method_ref : Nat) : Res ResolvedMethod :=
  match vm.frames with
  | [] => .err .CallStackUnderflow
  | frame :: _ =>
    let entries := frame.constant_pool.entries
    let actual_index := u16Pred method_ref
    if actual_index ≥ entries.length then .ok .Unknown
    else
      match entries.get? actual_index with
      | none => .crash
      | some (.Methodref class_index name_and_type_index) =>
        match entries.get? (u16Pred class_index) with
        | none => .crash
        | some (.Class name_index) =>
          match entries.get? (u16Pred name_index) with
          | none => .crash
          | some (.Utf8 class_name) =>
            match entries.get? (u16Pred name_and_type_index) with
            | none => .crash
            | some (.NameAndType name_index₂ desc_index) =>
              match entries.get? (u16Pred name_index₂) with
              | none => .crash
              | some (.Utf8 method_name) =>
                match entries.get? (u16Pred desc_index) with
                | none => .crash
                | some (.Utf8 descriptor) =>
                  .ok (intrinsicOf (class_name, method_name, descriptor))
                | some _ => .ok .Unknown
              | some _ => .ok .Unknown
            | some _ => .ok .Unknown
          | some _ => .ok .Unknown
        | some _ => .ok .Unknown
      | some _ => .ok .Unknown

/-- Model of `JvmCompatibleVm::resolve_user_method` (src/jvm/
jvm_compatible_vm.rs, lines 2486-2531): a `Methodref` whose class does not
start with `java/` and whose method name is in the current class's methods
map resolves to that user-defined method.  Interior `&entries[...]` accesses
are unchecked (`crash` on out of bounds). -/
def Vm.resolve_user_method (vm : Vm) (method_ref : Nat) : Res (Option MethodInfo) :=
  match vm.frames with
  | [] => .err .CallStackUnderflow
  | frame :: _ =>
    let entries := frame.constant_pool.entries
    let actual_index := u16Pred method_ref
    if actual_index ≥ entries.length then .ok none
    else
      match entries.get? actual_index with
      | none => .crash
      | some (.Methodref class_index name_and_type_index) =>
        match entries.get? (u16Pred class_index) with
        | none => .crash
        | some (.Class name_index) =>
          match entries.get? (u16Pred name_index) with
          | none => .crash
          | some (.Utf8 class_name) =>
            if ¬ class_name.startsWith "java/" then
              match entries.get? (u16Pred name_and_type_index) with
              | none => .crash
              | some (.NameAndType method_name_index _desc_index) =>
                match entries.get? (u16Pred method_name_index) with
                | none => .crash
                | some (.Utf8 method_name) =>
                  match vm.current_class with
                  | some current_class =>
                    match alistGet? current_class.methods method_name with
                    | some method_info => .ok (some method_info)
                    | none => .ok none
                  | none => .ok none
                | some _ => .ok none
              | some _ => .ok none
            else .ok none
          | some _ => .ok none
        | some _ => .ok none
      | some _ => .ok none

/-- Append text to the modelled stdout (`print!`). -/
def writeStream (vm : Vm) (is_stderr : Int) (s : String) : Vm :=
  if is_stderr = 1 then { vm with err_text := vm.err_text ++ s }
  else { vm with out_text := vm.out_text ++ s }

/-- Replace the top frame (the current `frames.last_mut()`). -/
def Vm.withTop (vm : Vm) (rest : List MethodFrame) (f : MethodFrame) : Vm :=
  { vm with frames := f :: rest }

/-- Push onto a frame's operand stack. -/
def MethodFrame.push (f : MethodFrame) (v : JvmValue) : MethodFrame :=
  { f with operand_stack := v :: f.operand_stack }

/-- Advance a frame's program counter by one. -/
def MethodFrame.advance (f : MethodFrame) : MethodFrame :=
  { f with pc := f.pc + 1 }

/-- Value of `c as u8 as char` for a `u16` char value. -/
def u8Char (c : Nat) : Char :=
  Char.ofNat (c % 256)

/-- Rust `char::is_ascii_digit`. -/
def isAsciiDigitB (c : Char) : Bool :=
  '0' ≤ c && c ≤ '9'

/-- Rust `char::is_ascii_alphabetic`. -/
def isAsciiAlphaB (c : Char) : Bool :=
  ('a' ≤ c && c ≤ 'z') || ('A' ≤ c && c ≤ 'Z')

/-- Rust `char::to_ascii_uppercase`. -/
def asciiUpperChar (c : Char) : Char :=
  if 'a' ≤ c && c ≤ 'z' then Char.ofNat (c.toNat - 32) else c

/-- Rust `char::to_ascii_lowercase`. -/
def asciiLowerChar (c : Char) : Char :=
  if 'A' ≤ c && c ≤ 'Z' then Char.ofNat (c.toNat + 32) else c

/-- Rust `str::eq_ignore_ascii_case`. -/
def eqIgnoreAsciiCase (a b : String) : Bool :=
  a.data.map asciiLowerChar == b.data.map asciiLowerChar

/-- Digits-only decimal value of a character list (`none` on any non-digit). -/
def digitsVal (l : List Char) : Option Nat :=
  l.foldl
    (fun acc c =>
      match acc with
      | none => none
      | some n => if isAsciiDigitB c then some (n * 10 + (c.toNat - 48)) else none)
    (some 0)

/-- Model of Rust `str::parse::<i32>`: an optional sign, one or more decimal
digits, and an `i32` range check; anything else fails. -/
def parseI32 (s : String) : Option Int :=
  let core : Bool → List Char → Option Int := fun neg ds =>
    if ds.isEmpty then none
    else
      match digitsVal ds with
      | none => none
      | some n =>
        if neg then (if n ≤ 2147483648 then some (-(n : Int)) else none)
        else (if n ≤ 2147483647 then some (n : Int) else none)
  match s.data with
  | '+' :: ds => core false ds
  | '-' :: ds => core true ds
  | ds => core false ds

/-- Saturation of an integer into the `i64` range (for float-to-`i64`
casts). -/
def i64clamp (t : Int) : Int :=
  if t < -9223372036854775808 then -9223372036854775808
  else if t > 9223372036854775807 then 9223372036854775807
  else t

/-- Absolute value on the rational model of `f64`. -/
def ratAbs (q : Rat) : Rat :=
  if q < 0 then -q else q

/-- Rust `bool::to_string`. -/
def boolToString (b : Bool) : String :=
  if b then "true" else "false"

/-- Model of `JvmCompatibleVm::invoke_special_method` (src/jvm/
jvm_compatible_vm.rs, lines 1953-1968): pop the object reference if the
stack is non-empty; never fails. -/
def Vm.invoke_special_method (vm : Vm) (_method_ref : Nat) : Res Vm :=
  match vm.frames with
  | [] => .err .CallStackUnderflow
  | frame :: rest =>
    match frame.operand_stack with
    | [] => .ok (vm.withTop rest frame)
    | _ :: stack' => .ok (vm.withTop rest { frame with operand_stack := stack' })

/-- Model of `JvmCompatibleVm::invoke_dynamic_method` (src/jvm/
jvm_compatible_vm.rs, lines 2598-2633): if the stack is non-empty, pop the
top value (the formatted `_string_result` is computed but unused in the
source) and push the sentinel string reference `Reference(Some(0))`. -/
def Vm.invoke_dynamic_method (vm : Vm) (_bootstrap_method_attr_index : Nat) : Res Vm :=
  match vm.frames with
  | [] => .err .CallStackUnderflow
  | frame :: rest =>
    match frame.operand_stack with
    | [] => .ok (vm.withTop rest frame)
    | _ :: stack' =>
      .ok (vm.withTop rest
        { frame with operand_stack := .Reference (some 0) :: stack' })

/-- Pop `n` values off an operand stack, returning them in pop order
(topmost first) together with the remaining stack. -/
def popMany : Nat → List JvmValue → Except RtError (List JvmValue × List JvmValue)
  | 0, stack => .ok ([], stack)
  | _ + 1, [] => .error .StackUnderflow
  | n + 1, v :: stack => (popMany n stack).map (fun pr => (v :: pr.1, pr.2))

/-- Model of the argument-placement loop of `invoke_user_defined_method`:
`locals[i] = args[i]` for every `i` below both lengths (extra arguments are
dropped, extra locals keep their zero value). -/
def fillArgs (locals args : List JvmValue) : List JvmValue :=
  locals.mapIdx (fun i v => (args.get? i).getD v)

/-- Model of the `ResolvedMethod::MathRandom` arm of `invoke_static_method`:
draw the next value of the modelled process-wide PRNG stream and push it. -/
def mathRandomPush (vm : Vm) : Res Vm :=
  let random_value := vm.rand_src.headD 0
  let vm₁ := { vm with rand_src := vm.rand_src.tail }
  match vm₁.frames with
  | [] => .err .CallStackUnderflow
  | frame :: rest => .ok (vm₁.withTop rest (frame.push (.Double random_value)))

/-- The string a `println(I)V`-family call prints for a value (the `match
value` of the `PrintStreamPrintln` arm). -/
def printlnValueString (ops : ExternOps) : JvmValue → String
  | .Int i => toString i
  | .Long l => toString l
  | .Double d => ops.f64ToString d
  | .Float f => ops.f32ToString f
  | .Boolean b => boolToString b
  | .Char c => (u8Char c).toString
  | _ => "null"

/-- Write `s` (directly, no newline) to the stream selected by the
PrintStream object `printstream_ref` refers to; if the reference, the heap
object, or its `is_stderr` integer field is missing, write nothing (the
source's silent fall-through). -/
def printViaStream (vm : Vm) (printstream_ref : JvmValue) (s : String) : Vm :=
  match printstream_ref with
  | .Reference (some obj_id) =>
    match alistGet? vm.heap obj_id with
    | some obj =>
      match alistGet? obj.fields "is_stderr" with
      | some (.Int is_stderr) => writeStream vm is_stderr s
      | _ => vm
    | none => vm
  | _ => vm

/-- Look up a string object's text and print it to the stream selected by
`printstream_ref` (the shared body of the `print`/`println` String arms):
both values must be non-null references, the string id must be in the
string-data table and the stream object must carry an `is_stderr` integer
field, otherwise nothing is printed. -/
def printStringViaStream (vm : Vm) (string_ref printstream_ref : JvmValue)
    (newline : Bool) : Vm :=
  match string_ref, printstream_ref with
  | .Reference (some string_id), .Reference (some stream_id) =>
    match alistGet? vm.string_data string_id with
    | some string_value =>
      match alistGet? vm.heap stream_id with
      | some stream_obj =>
        match alistGet? stream_obj.fields "is_stderr" with
        | some (.Int is_stderr) =>
          writeStream vm is_stderr (if newline then string_value ++ "\n" else string_value)
        | _ => vm
      | none => vm
    | none => vm
  | _, _ => vm

/-- Model of `JvmCompatibleVm::invoke_virtual_method` (src/jvm/
jvm_compatible_vm.rs, lines 1450-1951).  Console effects land in
`out_text`/`err_text`; arms the source leaves unimplemented return
`InvalidStackState` exactly as it does. -/
def Vm.invoke_virtual_method (ops : ExternOps) (vm : Vm) (method_ref : Nat) : Res Vm :=
  match vm.resolve_method_reference method_ref with
  | .err e => .err e
  | .crash => .crash
  | .nofuel => .nofuel
  | .ok method_info =>
    match vm.frames with
    | [] => .err .CallStackUnderflow
    | frame :: rest =>
      match method_info with
      | .PrintStreamPrintln =>
        match frame.operand_stack with
        | [] => .err .StackUnderflow
        | [_] => .err .StackUnderflow
        | value :: printstream_ref :: stack' =>
          let vm₁ := vm.withTop rest { frame with operand_stack := stack' }
          .ok (printViaStream vm₁ printstream_ref (printlnValueString ops value ++ "\n"))
      | .PrintStreamPrint =>
        match frame.operand_stack with
        | [] => .err .StackUnderflow
        | [_] => .err .StackUnderflow
        | string_ref :: printstream_ref :: stack' =>
          let vm₁ := vm.withTop rest { frame with operand_stack := stack' }
          .ok (printStringViaStream vm₁ string_ref printstream_ref false)
      | .PrintStreamPrintlnString =>
        match frame.operand_stack with
        | [] => .err .StackUnderflow
        | [_] => .err .StackUnderflow
        | string_ref :: printstream_ref :: stack' =>
          let vm₁ := vm.withTop rest { frame with operand_stack := stack' }
          .ok (printStringViaStream vm₁ string_ref printstream_ref true)
      | .PrintStreamPrintlnFloat =>
        match frame.operand_stack with
        | [] => .err .StackUnderflow
        | [_] => .err .StackUnderflow
        | value :: printstream_ref :: stack' =>
          let vm₁ := vm.withTop rest { frame with operand_stack := stack' }
          match printstream_ref with
          | .Reference (some obj_id) =>
            match alistGet? vm₁.heap obj_id with
            | some obj =>
              match alistGet? obj.fields "is_stderr" with
              | some (.Int is_stderr) =>
                match value with
                | .Float f => .ok (writeStream vm₁ is_stderr (ops.f32ToString f ++ "\n"))
                | .Int i => .ok (writeStream vm₁ is_stderr (ops.f32ToString (i : ℚ) ++ "\n"))
                | .Double d => .ok (writeStream vm₁ is_stderr (ops.f32ToString d ++ "\n"))
                | _ => .err .InvalidStackState
              | _ => .ok vm₁
            | none => .ok vm₁
          | _ => .ok vm₁
      | .PrintStreamPrintlnDouble =>
        match frame.operand_stack with
        | [] => .err .StackUnderflow
        | [_] => .err .StackUnderflow
        | value :: printstream_ref :: stack' =>
          let vm₁ := vm.withTop rest { frame with operand_stack := stack' }
          match printstream_ref with
          | .Reference (some obj_id) =>
            match alistGet? vm₁.heap obj_id with
            | some obj =>
              match alistGet? obj.fields "is_stderr" with
              | some (.Int is_stderr) =>
                match value with
                | .Double d => .ok (writeStream vm₁ is_stderr (ops.f64ToString d ++ "\n"))
                | .Float f => .ok (writeStream vm₁ is_stderr (ops.f64ToString f ++ "\n"))
                | .Int i => .ok (writeStream vm₁ is_stderr (ops.f64ToString (i : ℚ) ++ "\n"))
                | _ => .err .InvalidStackState
              | _ => .ok vm₁
            | none => .ok vm₁
          | _ => .ok vm₁
      | .PrintStreamPrintlnBoolean =>
        match frame.operand_stack with
        | [] => .err .StackUnderflow
        | [_] => .err .StackUnderflow
        | value :: printstream_ref :: stack' =>
          let vm₁ := vm.withTop rest { frame with operand_stack := stack' }
          match printstream_ref with
          | .Reference (some obj_id) =>
            match alistGet? vm₁.heap obj_id with
            | some obj =>
              match alistGet? obj.fields "is_stderr" with
              | some (.Int is_stderr) =>
                match value with
                | .Boolean b => .ok (writeStream vm₁ is_stderr (boolToString b ++ "\n"))
                | .Int i =>
                  .ok (writeStream vm₁ is_stderr (boolToString (decide (i ≠ 0)) ++ "\n"))
                | _ => .err .InvalidStackState
              | _ => .ok vm₁
            | none => .ok vm₁
          | _ => .ok vm₁
      | .PrintStreamPrintlnChar =>
        match frame.operand_stack with
        | [] => .err .StackUnderflow
        | [_] => .err .StackUnderflow
        | value :: printstream_ref :: stack' =>
          let vm₁ := vm.withTop rest { frame with operand_stack := stack' }
          match printstream_ref with
          | .Reference (some obj_id) =>
            match alistGet? vm₁.heap obj_id with
            | some obj =>
              match alistGet? obj.fields "is_stderr" with
              | some (.Int is_stderr) =>
                match value with
                | .Char c => .ok (writeStream vm₁ is_stderr ((u8Char c).toString ++ "\n"))
                | .Int i =>
                  .ok (writeStream vm₁ is_stderr
                    ((u8Char ((i % 65536).toNat)).toString ++ "\n"))
                | _ => .err .InvalidStackState
              | _ => .ok vm₁
            | none => .ok vm₁
          | _ => .ok vm₁
      | .MathRandom | .MathMaxInt | .MathMinInt | .MathMaxDouble | .MathMinDouble
      | .MathAbs | .MathAbsDouble | .MathPow | .MathSqrt | .MathFloor | .MathCeil
      | .MathRound | .MathSin | .MathCos | .MathTan | .MathLog | .MathExp =>
        .err .InvalidStackState
      | .StringLength =>
        match frame.operand_stack with
        | [] => .err .StackUnderflow
        | string_ref :: stack' =>
          match string_ref with
          | .Reference (some string_id) =>
            match alistGet? vm.string_data string_id with
            | some string_value =>
              .ok (vm.withTop rest
                { frame with
                  operand_stack :=
                    .Int (wrap32 string_value.utf8ByteSize) :: stack' })
            | none => .err .InvalidStackState
          | _ => .err .InvalidStackState
      | .IntegerParseInt | .IntegerToString | .IntegerValueOf
      | .DoubleParseDouble | .DoubleToString | .DoubleValueOf
      | .BooleanParseBoolean | .BooleanToString | .BooleanValueOf
      | .CharacterIsDigit | .CharacterIsLetter
      | .CharacterToUpperCase | .CharacterToLowerCase =>
        .err .InvalidStackState
      | .StringCharAt | .StringSubstring | .StringIndexOf | .StringToUpperCase
      | .StringToLowerCase | .StringTrim | .StringEquals | .StringConcat =>
        .err .InvalidStackState
      | .StringBuilderAppendString | .StringBuilderAppendInt
      | .StringBuilderAppendDouble =>
        match frame.operand_stack with
        | [] => .err .StackUnderflow
        | [_] => .err .StackUnderflow
        | _value :: sb_ref :: stack' =>
          .ok (vm.withTop rest { frame with operand_stack := sb_ref :: stack' })
      | .StringBuilderToString =>
        match frame.operand_stack with
        | [] => .err .StackUnderflow
        | _sb_ref :: stack' =>
          .ok (vm.withTop rest
            { frame with operand_stack := .Reference (some 1) :: stack' })
      | .Unknown =>
        match method_ref with
        | 33 =>
          match frame.operand_stack with
          | [] => .err .StackUnderflow
          | value :: s₁ =>
            match value.as_int with
            | .error e => .err e
            | .ok value_int =>
              match s₁ with
              | [] => .err .StackUnderflow
              | printstream_ref :: stack' =>
                let vm₁ := vm.withTop rest { frame with operand_stack := stack' }
                .ok (printViaStream vm₁ printstream_ref (toString value_int ++ "\n"))
        | 34 =>
          match frame.operand_stack with
          | [] => .err .StackUnderflow
          | [_] => .err .StackUnderflow
          | string_ref :: printstream_ref :: stack' =>
            let vm₁ := vm.withTop rest { frame with operand_stack := stack' }
            .ok (printStringViaStream vm₁ string_ref printstream_ref false)
        | 35 =>
          match frame.operand_stack with
          | [] => .err .StackUnderflow
          | [_] => .err .StackUnderflow
          | string_ref :: printstream_ref :: stack' =>
            let vm₁ := vm.withTop rest { frame with operand_stack := stack' }
            .ok (printStringViaStream vm₁ string_ref printstream_ref true)
        | _ => .err .InvalidStackState

/-- Shared shape of the constant-pushing arms of
`execute_single_instruction`: push a value onto the operand stack and
advance the program counter. -/
def pushConstArm (vm : Vm) (rest : List MethodFrame) (frame : MethodFrame) (v : JvmValue) :
    Res (Option JvmValue × Vm) :=
  .ok (none, vm.withTop rest ((frame.push v).advance))

/-- Shared shape of the local-variable load arms (`Iload`/`Aload`/`Dload`/
`Lload` and their fixed-index forms): push `locals[index]`, or
`InvalidStackState` when the slot does not exist. -/
def loadLocalArm (vm : Vm) (rest : List MethodFrame) (frame : MethodFrame) (index : Nat) :
    Res (Option JvmValue × Vm) :=
  match frame.locals.get? index with
  | some value => .ok (none, vm.withTop rest ((frame.push value).advance))
  | none => .err .InvalidStackState

/-- Shared shape of the local-variable store arms: pop a value, grow the
locals with the type-appropriate default when `index` is past the end
(`Vec::resize(index + 1, default)`), and write the slot. -/
def storeLocalArm (vm : Vm) (rest : List MethodFrame) (frame : MethodFrame) (index : Nat)
    (default : JvmValue) : Res (Option JvmValue × Vm) :=
  match frame.operand_stack with
  | [] => .err .StackUnderflow
  | value :: stack' =>
    let locals :=
      if index ≥ frame.locals.length then
        frame.locals ++ List.replicate (index + 1 - frame.locals.length) default
      else frame.locals
    .ok (none, vm.withTop rest
      { frame with
        operand_stack := stack'
        locals := locals.set index value
        pc := frame.pc + 1 })

/-- Shared shape of the integer arithmetic arms: pop `b` then `a`, coerce
both with `as_int`, and push `f a b` (which may itself fault, e.g. division
by zero). -/
def intBinArm (vm : Vm) (rest : List MethodFrame) (frame : MethodFrame)
    (f : Int → Int → Res JvmValue) : Res (Option JvmValue × Vm) :=
  match frame.operand_stack with
  | [] => .err .StackUnderflow
  | vb :: s₁ =>
    match vb.as_int with
    | .error e => .err e
    | .ok b =>
      match s₁ with
      | [] => .err .StackUnderflow
      | va :: s₂ =>
        match va.as_int with
        | .error e => .err e
        | .ok a =>
          match f a b with
          | .ok v =>
            .ok (none, vm.withTop rest
              { frame with operand_stack := v :: s₂, pc := frame.pc + 1 })
          | .err e => .err e
          | .crash => .crash
          | .nofuel => .nofuel

/-- Shared shape of the double arithmetic arms: pop `b` then `a`, require
both to be `Double` (else `InvalidStackState`), and push `f a b`. -/
def doubleBinArm (vm : Vm) (rest : List MethodFrame) (frame : MethodFrame)
    (f : Rat → Rat → Res JvmValue) : Res (Option JvmValue × Vm) :=
  match frame.operand_stack with
  | [] => .err .StackUnderflow
  | vb :: s₁ =>
    match s₁ with
    | [] => .err .StackUnderflow
    | va :: s₂ =>
      match va, vb with
      | .Double a, .Double b =>
        match f a b with
        | .ok v =>
          .ok (none, vm.withTop rest
            { frame with operand_stack := v :: s₂, pc := frame.pc + 1 })
        | .err e => .err e
        | .crash => .crash
        | .nofuel => .nofuel
      | _, _ => .err .InvalidStackState

/-- Shared shape of the `If*` branch arms: pop an integer and set `pc` to
the (instruction-index) offset when the predicate holds, else advance. -/
def ifArm (vm : Vm) (rest : List MethodFrame) (frame : MethodFrame) (offset : Nat)
    (p : Int → Bool) : Res (Option JvmValue × Vm) :=
  match frame.operand_stack with
  | [] => .err .StackUnderflow
  | v :: stack' =>
    match v.as_int with
    | .error e => .err e
    | .ok value =>
      .ok (none, vm.withTop rest
        { frame with
          operand_stack := stack'
          pc := if p value then offset else frame.pc + 1 })

/-- Shared shape of the static intrinsic arms that only touch the current
frame: apply `k` to the top frame. -/
def staticFrameOp (vm : Vm) (k : MethodFrame → Res MethodFrame) : Res Vm :=
  match vm.frames with
  | [] => .err .CallStackUnderflow
  | frame :: rest =>
    match k frame with
    | .ok frame' => .ok (vm.withTop rest frame')
    | .err e => .err e
    | .crash => .crash
    | .nofuel => .nofuel

/-- Static intrinsic: pop `b` then `a` with `as_int` and push `f a b`. -/
def staticIntBin (frame : MethodFrame) (f : Int → Int → JvmValue) : Res MethodFrame :=
  match frame.operand_stack with
  | [] => .err .StackUnderflow
  | vb :: s₁ =>
    match vb.as_int with
    | .error e => .err e
    | .ok b =>
      match s₁ with
      | [] => .err .StackUnderflow
      | va :: s₂ =>
        match va.as_int with
        | .error e => .err e
        | .ok a => .ok { frame with operand_stack := f a b :: s₂ }

/-- Static intrinsic: pop one value with `as_int` and push `f v`. -/
def staticIntUn (frame : MethodFrame) (f : Int → JvmValue) : Res MethodFrame :=
  match frame.operand_stack with
  | [] => .err .StackUnderflow
  | v :: s₁ =>
    match v.as_int with
    | .error e => .err e
    | .ok value => .ok { frame with operand_stack := f value :: s₁ }

/-- Static intrinsic: pop `b` then `a`, require both `Double`, push
`f a b`. -/
def staticDoubleBin (frame : MethodFrame) (f : Rat → Rat → JvmValue) : Res MethodFrame :=
  match frame.operand_stack with
  | [] => .err .StackUnderflow
  | vb :: s₁ =>
    match s₁ with
    | [] => .err .StackUnderflow
    | va :: s₂ =>
      match va, vb with
      | .Double a, .Double b => .ok { frame with operand_stack := f a b :: s₂ }
      | _, _ => .err .InvalidStackState

/-- Static intrinsic: pop one value that must be a `Double` (`if let`
pattern, no coercion) and push `f d`. -/
def staticDoubleOnly (frame : MethodFrame) (f : Rat → JvmValue) : Res MethodFrame :=
  match frame.operand_stack with
  | [] => .err .StackUnderflow
  | v :: s₁ =>
    match v with
    | .Double d => .ok { frame with operand_stack := f d :: s₁ }
    | _ => .err .InvalidStackState

/-- Static intrinsic: pop one value with the `as_double` coercion and push
`f d`. -/
def staticDoubleUn (frame : MethodFrame) (f : Rat → JvmValue) : Res MethodFrame :=
  match frame.operand_stack with
  | [] => .err .StackUnderflow
  | v :: s₁ =>
    match v.as_double with
    | .error e => .err e
    | .ok d => .ok { frame with operand_stack := f d :: s₁ }

/-- Static intrinsic: pop one value with `as_char` and push `f c`. -/
def staticCharUn (frame : MethodFrame) (f : Nat → JvmValue) : Res MethodFrame :=
  match frame.operand_stack with
  | [] => .err .StackUnderflow
  | v :: s₁ =>
    match v.as_char with
    | .error e => .err e
    | .ok c => .ok { frame with operand_stack := f c :: s₁ }

/-- Shared shape of the `*ToString` static intrinsics: pop a value, convert
it to text, allocate a string object for the text and push its reference. -/
def staticToString (vm : Vm) (conv : JvmValue → Except RtError String) : Res Vm :=
  match vm.frames with
  | [] => .err .CallStackUnderflow
  | frame :: rest =>
    match frame.operand_stack with
    | [] => .err .StackUnderflow
    | v :: stack' =>
      match conv v with
      | .error e => .err e
      | .ok s =>
        let r := (vm.withTop rest { frame with operand_stack := stack' }).create_string_object s
        match r.2.frames with
        | [] => .err .CallStackUnderflow
        | frame₁ :: rest₁ =>
          .ok (r.2.withTop rest₁ (frame₁.push (.Reference (some r.1))))

mutual

/-- Model of `JvmCompatibleVm::execute_single_instruction` (src/jvm/
jvm_compatible_vm.rs, lines 257-1103).  The first `Nat` is fuel: every
function of this mutually recursive block consumes one unit on entry, and a
`nofuel` result means the modelled computation did not finish within the
given fuel.  A fetch with `pc` at or past the end of the bytecode pops the
frame (implicit void return).  The source's dispatch `match` has NO arm for
`Nop` (it is absent from the exhaustive list); executing `Nop` is therefore
modelled as `crash`.  `i32` arithmetic wraps (release profile); `i32::MIN /
-1` and `i32::MIN % -1` panic in every profile and are modelled as
`crash`. -/
def execute_single_instruction (ops : ExternOps) : Nat → Vm → Res (Option JvmValue × Vm)
  | 0, _ => .nofuel
  | fuel + 1, vm =>
    match vm.frames with
    | [] => .err .CallStackUnderflow
    | frame :: rest =>
      if frame.pc ≥ frame.bytecode.length then .ok (none, { vm with frames := rest })
      else
        match frame.bytecode.get? frame.pc with
        | none => .crash
        | some instr =>
          match instr with
          | .IconstM1 => pushConstArm vm rest frame (.Int (-1))
          | .Iconst0 => pushConstArm vm rest frame (.Int 0)
          | .Iconst1 => pushConstArm vm rest frame (.Int 1)
          | .Iconst2 => pushConstArm vm rest frame (.Int 2)
          | .Iconst3 => pushConstArm vm rest frame (.Int 3)
          | .Iconst4 => pushConstArm vm rest frame (.Int 4)
          | .Iconst5 => pushConstArm vm rest frame (.Int 5)
          | .Lconst0 => pushConstArm vm rest frame (.Long 0)
          | .Lconst1 => pushConstArm vm rest frame (.Long 1)
          | .Bipush value => pushConstArm vm rest frame (.Int value)
          | .Sipush value => pushConstArm vm rest frame (.Int value)
          | .Ldc index =>
            match vm.load_constant_from_pool index with
            | .err e => .err e
            | .crash => .crash
            | .nofuel => .nofuel
            | .ok (value, vm₁) =>
              match vm₁.frames with
              | [] => .err .CallStackUnderflow
              | frame₁ :: rest₁ =>
                .ok (none, vm₁.withTop rest₁ ((frame₁.push value).advance))
          | .Ldc2W index =>
            match vm.load_constant_from_pool index with
            | .err e => .err e
            | .crash => .crash
            | .nofuel => .nofuel
            | .ok (value, vm₁) =>
              match vm₁.frames with
              | [] => .err .CallStackUnderflow
              | frame₁ :: rest₁ =>
                .ok (none, vm₁.withTop rest₁ ((frame₁.push value).advance))
          | .Pop =>
            match frame.operand_stack with
            | [] => .err .StackUnderflow
            | _ :: stack' =>
              .ok (none, vm.withTop rest
                { frame with operand_stack := stack', pc := frame.pc + 1 })
          | .Dup =>
            match frame.operand_stack with
            | [] => .err .StackUnderflow
            | value :: _ => .ok (none, vm.withTop rest ((frame.push value).advance))
          | .Swap =>
            match frame.operand_stack with
            | a :: b :: stack' =>
              .ok (none, vm.withTop rest
                { frame with operand_stack := b :: a :: stack', pc := frame.pc + 1 })
            | _ => .err .StackUnderflow
          | .Iadd => intBinArm vm rest frame (fun a b => .ok (.Int (wrap32 (a + b))))
          | .Isub => intBinArm vm rest frame (fun a b => .ok (.Int (wrap32 (a - b))))
          | .Imul => intBinArm vm rest frame (fun a b => .ok (.Int (wrap32 (a * b))))
          | .Idiv =>
            intBinArm vm rest frame (fun a b =>
              if b = 0 then .err .DivisionByZero
              else if a = -2147483648 ∧ b = -1 then .crash
              else .ok (.Int (Int.tdiv a b)))
          | .Irem =>
            intBinArm vm rest frame (fun a b =>
              if b = 0 then .err .DivisionByZero
              else if a = -2147483648 ∧ b = -1 then .crash
              else .ok (.Int (Int.tmod a b)))
          | .Dadd => doubleBinArm vm rest frame (fun a b => .ok (.Double (a + b)))
          | .Dsub => doubleBinArm vm rest frame (fun a b => .ok (.Double (a - b)))
          | .Dmul => doubleBinArm vm rest frame (fun a b => .ok (.Double (a * b)))
          | .Ddiv =>
            doubleBinArm vm rest frame (fun a b =>
              if b = 0 then .err .DivisionByZero
              else .ok (.Double (a / b)))
          | .I2d =>
            match frame.operand_stack with
            | [] => .err .StackUnderflow
            | v :: stack' =>
              match v.as_int with
              | .error e => .err e
              | .ok value =>
                .ok (none, vm.withTop rest
                  { frame with
                    operand_stack := .Double (value : ℚ) :: stack'
                    pc := frame.pc + 1 })
          | .D2i =>
            match frame.operand_stack with
            | [] => .err .StackUnderflow
            | v :: stack' =>
              match v with
              | .Double d_val =>
                .ok (none, vm.withTop rest
                  { frame with
                    operand_stack := .Int (ratToI32 d_val) :: stack'
                    pc := frame.pc + 1 })
              | _ => .err .InvalidStackState
          | .Goto offset =>
            .ok (none, vm.withTop rest { frame with pc := offset })
          | .Ifeq offset => ifArm vm rest frame offset (fun value => value = 0)
          | .Ifne offset => ifArm vm rest frame offset (fun value => value ≠ 0)
          | .Iflt offset => ifArm vm rest frame offset (fun value => value < 0)
          | .Ifge offset => ifArm vm rest frame offset (fun value => value ≥ 0)
          | .Ifgt offset => ifArm vm rest frame offset (fun value => value > 0)
          | .Ifle offset => ifArm vm rest frame offset (fun value => value ≤ 0)
          | .Return => .ok (none, { vm with frames := rest })
          | .Ireturn =>
            match frame.operand_stack with
            | [] => .err .StackUnderflow
            | return_value :: _ => .ok (some return_value, { vm with frames := rest })
          | .New _class_ref => pushConstArm vm rest frame (.Reference (some 0))
          | .Getstatic field_ref =>
            match vm.resolve_static_field field_ref with
            | .err e => .err e
            | .crash => .crash
            | .nofuel => .nofuel
            | .ok (field_value, vm₁) =>
              match vm₁.frames with
              | [] => .err .CallStackUnderflow
              | frame₁ :: rest₁ =>
                .ok (none, vm₁.withTop rest₁ ((frame₁.push field_value).advance))
          | .Invokevirtual method_ref =>
            match vm.invoke_virtual_method ops method_ref with
            | .err e => .err e
            | .crash => .crash
            | .nofuel => .nofuel
            | .ok vm₁ =>
              match vm₁.frames with
              | [] => .err .CallStackUnderflow
              | frame₁ :: rest₁ => .ok (none, vm₁.withTop rest₁ frame₁.advance)
          | .Invokespecial method_ref =>
            match vm.invoke_special_method method_ref with
            | .err e => .err e
            | .crash => .crash
            | .nofuel => .nofuel
            | .ok vm₁ =>
              match vm₁.frames with
              | [] => .err .CallStackUnderflow
              | frame₁ :: rest₁ => .ok (none, vm₁.withTop rest₁ frame₁.advance)
          | .Invokestatic method_ref =>
            match invoke_static_method ops fuel vm method_ref with
            | .err e => .err e
            | .crash => .crash
            | .nofuel => .nofuel
            | .ok vm₁ =>
              match vm₁.frames with
              | [] => .err .CallStackUnderflow
              | frame₁ :: rest₁ => .ok (none, vm₁.withTop rest₁ frame₁.advance)
          | .Invokedynamic bootstrap_method_attr_index =>
            match vm.invoke_dynamic_method bootstrap_method_attr_index with
            | .err e => .err e
            | .crash => .crash
            | .nofuel => .nofuel
            | .ok vm₁ =>
              match vm₁.frames with
              | [] => .err .CallStackUnderflow
              | frame₁ :: rest₁ => .ok (none, vm₁.withTop rest₁ frame₁.advance)
          | .Dconst0 => pushConstArm vm rest frame (.Double 0)
          | .Dconst1 => pushConstArm vm rest frame (.Double 1)
          | .Iload index => loadLocalArm vm rest frame index
          | .Iload0 => loadLocalArm vm rest frame 0
          | .Iload1 => loadLocalArm vm rest frame 1
          | .Iload2 => loadLocalArm vm rest frame 2
          | .Iload3 => loadLocalArm vm rest frame 3
          | .Istore index => storeLocalArm vm rest frame index (.Int 0)
          | .Istore0 => storeLocalArm vm rest frame 0 (.Int 0)
          | .Istore1 => storeLocalArm vm rest frame 1 (.Int 0)
          | .Istore2 => storeLocalArm vm rest frame 2 (.Int 0)
          | .Istore3 => storeLocalArm vm rest frame 3 (.Int 0)
          | .Aload index => loadLocalArm vm rest frame index
          | .Aload0 => loadLocalArm vm rest frame 0
          | .Aload1 => loadLocalArm vm rest frame 1
          | .Aload2 => loadLocalArm vm rest frame 2
          | .Aload3 => loadLocalArm vm rest frame 3
          | .Astore index => storeLocalArm vm rest frame index (.Reference none)
          | .Astore0 => storeLocalArm vm rest frame 0 (.Reference none)
          | .Astore1 => storeLocalArm vm rest frame 1 (.Reference none)
          | .Astore2 => storeLocalArm vm rest frame 2 (.Reference none)
          | .Astore3 => storeLocalArm vm rest frame 3 (.Reference none)
          | .Dload index => loadLocalArm vm rest frame index
          | .Dload0 => loadLocalArm vm rest frame 0
          | .Dload1 => loadLocalArm vm rest frame 1
          | .Dload2 => loadLocalArm vm rest frame 2
          | .Dload3 => loadLocalArm vm rest frame 3
          | .Dstore index => storeLocalArm vm rest frame index (.Double 0)
          | .Dstore0 => storeLocalArm vm rest frame 0 (.Double 0)
          | .Dstore1 => storeLocalArm vm rest frame 1 (.Double 0)
          | .Dstore2 => storeLocalArm vm rest frame 2 (.Double 0)
          | .Dstore3 => storeLocalArm vm rest frame 3 (.Double 0)
          | .Lload index => loadLocalArm vm rest frame index
          | .Lload0 => loadLocalArm vm rest frame 0
          | .Lload1 => loadLocalArm vm rest frame 1
          | .Lload2 => loadLocalArm vm rest frame 2
          | .Lload3 => loadLocalArm vm rest frame 3
          | .Lstore index => storeLocalArm vm rest frame index (.Long 0)
          | .Lstore0 => storeLocalArm vm rest frame 0 (.Long 0)
          | .Lstore1 => storeLocalArm vm rest frame 1 (.Long 0)
          | .Lstore2 => storeLocalArm vm rest frame 2 (.Long 0)
          | .Lstore3 => storeLocalArm vm rest frame 3 (.Long 0)
          | .Nop => .crash

/-- Model of `JvmCompatibleVm::invoke_static_method` (src/jvm/
jvm_compatible_vm.rs, lines 1970-2484): user-defined methods are resolved
first; otherwise the intrinsic table is consulted, with the numeric fallback
(36 = `Math.random`) inside the `Unknown` arm. -/
def invoke_static_method (ops : ExternOps) : Nat → Vm → Nat → Res Vm
  | 0, _, _ => .nofuel
  | fuel + 1, vm, method_ref =>
    match vm.resolve_user_method method_ref with
    | .err e => .err e
    | .crash => .crash
    | .nofuel => .nofuel
    | .ok (some method_info) => invoke_user_defined_method ops fuel vm method_info
    | .ok none =>
      match vm.resolve_method_reference method_ref with
      | .err e => .err e
      | .crash => .crash
      | .nofuel => .nofuel
      | .ok method_info =>
        match method_info with
        | .MathRandom => mathRandomPush vm
        | .MathMaxInt =>
          staticFrameOp vm (fun frame =>
            staticIntBin frame (fun a b => .Int (if a > b then a else b)))
        | .MathMinInt =>
          staticFrameOp vm (fun frame =>
            staticIntBin frame (fun a b => .Int (if a < b then a else b)))
        | .MathMaxDouble =>
          staticFrameOp vm (fun frame =>
            staticDoubleBin frame (fun a b => .Double (if a > b then a else b)))
        | .MathMinDouble =>
          staticFrameOp vm (fun frame =>
            staticDoubleBin frame (fun a b => .Double (if a < b then a else b)))
        | .MathAbs =>
          staticFrameOp vm (fun frame => staticIntUn frame (fun v => .Int (i32abs v)))
        | .MathAbsDouble =>
          staticFrameOp vm (fun frame =>
            staticDoubleOnly frame (fun d => .Double (ratAbs d)))
        | .MathPow =>
          staticFrameOp vm (fun frame =>
            staticDoubleBin frame (fun base exponent => .Double (ops.powOp base exponent)))
        | .MathSqrt =>
          staticFrameOp vm (fun frame =>
            staticDoubleOnly frame (fun d => .Double (ops.sqrtOp d)))
        | .MathFloor =>
          staticFrameOp vm (fun frame =>
            staticDoubleUn frame (fun d => .Double (d.floor : ℚ)))
        | .MathCeil =>
          staticFrameOp vm (fun frame =>
            staticDoubleUn frame (fun d => .Double (d.ceil : ℚ)))
        | .MathRound =>
          staticFrameOp vm (fun frame =>
            staticDoubleUn frame (fun d => .Long (i64clamp (ratRound d))))
        | .MathSin =>
          staticFrameOp vm (fun frame => staticDoubleUn frame (fun d => .Double (ops.sinOp d)))
        | .MathCos =>
          staticFrameOp vm (fun frame => staticDoubleUn frame (fun d => .Double (ops.cosOp d)))
        | .MathTan =>
          staticFrameOp vm (fun frame => staticDoubleUn frame (fun d => .Double (ops.tanOp d)))
        | .MathLog =>
          staticFrameOp vm (fun frame => staticDoubleUn frame (fun d => .Double (ops.lnOp d)))
        | .MathExp =>
          staticFrameOp vm (fun frame => staticDoubleUn frame (fun d => .Double (ops.expOp d)))
        | .IntegerParseInt =>
          staticFrameOp vm (fun frame =>
            match frame.operand_stack with
            | [] => .err .StackUnderflow
            | string_ref :: stack' =>
              match string_ref with
              | .Reference (some string_id) =>
                match alistGet? vm.string_data string_id with
                | some string_value =>
                  match parseI32 string_value with
                  | some int_val =>
                    .ok { frame with operand_stack := .Int int_val :: stack' }
                  | none => .err .InvalidStackState
                | none => .err .InvalidStackState
              | _ => .err .InvalidStackState)
        | .IntegerToString => staticToString vm (fun v => v.as_int.map toString)
        | .DoubleParseDouble =>
          staticFrameOp vm (fun frame =>
            match frame.operand_stack with
            | [] => .err .StackUnderflow
            | string_ref :: stack' =>
              match string_ref with
              | .Reference (some string_id) =>
                match alistGet? vm.string_data string_id with
                | some string_value =>
                  match ops.parseF64 string_value with
                  | some double_val =>
                    .ok { frame with operand_stack := .Double double_val :: stack' }
                  | none => .err .InvalidStackState
                | none => .err .InvalidStackState
              | _ => .err .InvalidStackState)
        | .DoubleToString => staticToString vm (fun v => v.as_double.map ops.f64ToString)
        | .BooleanParseBoolean =>
          staticFrameOp vm (fun frame =>
            match frame.operand_stack with
            | [] => .err .StackUnderflow
            | string_ref :: stack' =>
              match string_ref with
              | .Reference (some string_id) =>
                match alistGet? vm.string_data string_id with
                | some string_value =>
                  .ok { frame with
                    operand_stack :=
                      .Boolean (eqIgnoreAsciiCase string_value "true") :: stack' }
                | none => .err .InvalidStackState
              | _ => .err .InvalidStackState)
        | .BooleanToString => staticToString vm (fun v => v.as_boolean.map boolToString)
        | .CharacterIsDigit =>
          staticFrameOp vm (fun frame =>
            staticCharUn frame (fun c => .Boolean (isAsciiDigitB (u8Char c))))
        | .CharacterIsLetter =>
          staticFrameOp vm (fun frame =>
            staticCharUn frame (fun c => .Boolean (isAsciiAlphaB (u8Char c))))
        | .CharacterToUpperCase =>
          staticFrameOp vm (fun frame =>
            staticCharUn frame (fun c => .Char (asciiUpperChar (u8Char c)).toNat))
        | .CharacterToLowerCase =>
          staticFrameOp vm (fun frame =>
            staticCharUn frame (fun c => .Char (asciiLowerChar (u8Char c)).toNat))
        | .IntegerValueOf | .DoubleValueOf | .BooleanValueOf => .err .InvalidStackState
        | .Unknown =>
          match vm.resolve_user_method method_ref with
          | .err e => .err e
          | .crash => .crash
          | .nofuel => .nofuel
          | .ok (some method_info) => invoke_user_defined_method ops fuel vm method_info
          | .ok none =>
            match method_ref with
            | 36 => mathRandomPush vm
            | _ => .err .InvalidStackState
        | _ => .err .InvalidStackState

/-- Model of `JvmCompatibleVm::invoke_user_defined_method` (src/jvm/
jvm_compatible_vm.rs, lines 2533-2596): pop the arguments (count from the
descriptor), build a fresh frame whose first locals are the arguments, push
it, and run the nested execution loop. -/
def invoke_user_defined_method (ops : ExternOps) : Nat → Vm → MethodInfo → Res Vm
  | 0, _, _ => .nofuel
  | fuel + 1, vm, method_info =>
    match vm.frames with
    | [] => .err .CallStackUnderflow
    | current_frame :: rest =>
      let param_count := count_method_parameters method_info.descriptor
      match popMany param_count current_frame.operand_stack with
      | .error e => .err e
      | .ok (popped, stack') =>
        let args := popped.reverse
        let new_frame : MethodFrame :=
          { locals := fillArgs (List.replicate method_info.max_locals (.Int 0)) args
            operand_stack := []
            constant_pool := current_frame.constant_pool
            pc := 0
            bytecode := method_info.bytecode }
        invoke_user_loop ops fuel
          { vm with
            frames := new_frame :: { current_frame with operand_stack := stack' } :: rest }

/-- Model of the nested `while self.frames.len() > 1` execution loop of
`invoke_user_defined_method`: run instructions until the callee frame
returns, checking the step budget before each instruction and counting each
completed instruction; a returned value is pushed onto the caller's operand
stack. -/
def invoke_user_loop (ops : ExternOps) : Nat → Vm → Res Vm
  | 0, _ => .nofuel
  | fuel + 1, vm =>
    if vm.frames.length > 1 then
      if vm.steps ≥ vm.max_steps then .err .InvalidStackState
      else
        match execute_single_instruction ops fuel vm with
        | .err e => .err e
        | .crash => .crash
        | .nofuel => .nofuel
        | .ok (result, vm₁) =>
          let vm₂ := { vm₁ with steps := vm₁.steps + 1 }
          match result with
          | some return_value =>
            match vm₂.frames with
            | [] => .err .CallStackUnderflow
            | caller :: r =>
              .ok { vm₂ with
                frames :=
                  { caller with operand_stack := return_value :: caller.operand_stack } :: r }
          | none => invoke_user_loop ops fuel vm₂
    else .ok vm

/-- Model of the `while !self.frames.is_empty()` loop of
`JvmCompatibleVm::execute_method` (src/jvm/jvm_compatible_vm.rs, lines
220-233): check the step budget, execute one instruction, count it, and
stop when a value is returned or the frame stack empties. -/
def execute_method_loop (ops : ExternOps) : Nat → Vm → Res (Option JvmValue × Vm)
  | 0, _ => .nofuel
  | fuel + 1, vm =>
    if vm.frames.isEmpty then .ok (none, vm)
    else if vm.steps ≥ vm.max_steps then .err .InvalidStackState
    else
      match execute_single_instruction ops fuel vm with
      | .err e => .err e
      | .crash => .crash
      | .nofuel => .nofuel
      | .ok (result, vm₁) =>
        let vm₂ := { vm₁ with steps := vm₁.steps + 1 }
        match result with
        | some return_value => .ok (some return_value, vm₂)
        | none => execute_method_loop ops fuel vm₂

end

/-- Model of `JvmCompatibleVm::execute_method` (src/jvm/
jvm_compatible_vm.rs, lines 203-234): push a fresh frame for the given
bytecode and pool, reset the step counter, and run the loop. -/
def execute_method (ops : ExternOps) (fuel : Nat) (vm : Vm)
    (bytecode : List JvmInstruction) (constant_pool : ConstantPool) (max_locals : Nat) :
    Res (Option JvmValue × Vm) :=
  let frame : MethodFrame :=
    { locals := List.replicate max_locals (.Int 0)
      operand_stack := []
      constant_pool := constant_pool
      pc := 0
      bytecode := bytecode }
  execute_method_loop ops fuel { vm with frames := frame :: vm.frames, steps := 0 }

/-- A pool holding exactly 65535 `Integer` entries.  It is reachable through
65535 `add_integer` calls, none of which checks the cap. -/
def poolAtCap : ConstantPool :=
  ⟨List.replicate 65535 (.Integer 0)⟩

/-- A pool holding 65536 `Integer` entries (one beyond the documented cap),
reachable through 65536 `add_integer` calls. -/
def poolPastCap : ConstantPool :=
  ⟨List.replicate 65536 (.Integer 0)⟩

/-- Whether a `Res` outcome is a success. -/
def Res.isOk : Res α → Bool
  | .ok _ => true
  | _ => false

/-- The vm a successful single step produces (identity on failure); used
only to state concrete executions compactly. -/
def stepVm (ops : ExternOps) (vm : Vm) : Vm :=
  match execute_single_instruction ops 1 vm with
  | .ok (_, vm₁) => vm₁
  | _ => vm

/-- The value `load_constant_from_pool` pushes for a directly loadable
NUMERIC pool entry.  `String` entries are deliberately excluded: loading one
allocates a fresh heap object, so its pushed value depends on the vm
state. -/
def poolLoadPure : ConstantPoolEntry → Option JvmValue
  | .Integer i => some (.Int i)
  | .Float f => some (.Float f)
  | .Long l => some (.Long l)
  | .Double d => some (.Double d)
  | _ => none

/-- A frame executing `Goto 5` over one-instruction bytecode. -/
def frameGotoW : MethodFrame :=
  ⟨[], [], ⟨[]⟩, 0, [.Goto 5]⟩

/-- A vm about to execute `frameGotoW`. -/
def vmGotoW : Vm :=
  { vmNew with frames := [frameGotoW] }

/-- A frame executing `Idiv` with divisor `0` over dividend `6`. -/
def frameIdivW : MethodFrame :=
  ⟨[], [.Int 0, .Int 6], ⟨[]⟩, 0, [.Idiv]⟩

/-- A vm about to execute `frameIdivW`. -/
def vmIdivW : Vm :=
  { vmNew with frames := [frameIdivW] }

/-- A pool whose entry 2 is a `String` pointing at the `Utf8` entry 1. -/
def poolLdcS : ConstantPool :=
  ⟨[.Utf8 "A", .String 1]⟩

/-- A frame executing `Ldc 2` twice over `poolLdcS`. -/
def frameLdcS : MethodFrame :=
  ⟨[], [], poolLdcS, 0, [.Ldc 2, .Ldc 2]⟩

/-- A vm about to execute `frameLdcS`. -/
def vmLdcS : Vm :=
  { vmNew with frames := [frameLdcS] }

/-- A frame executing `Ldc 1` twice over a pool whose entry 1 is
`Integer 7`. -/
def frameLdcN : MethodFrame :=
  ⟨[], [], ⟨[.Integer 7]⟩, 0, [.Ldc 1, .Ldc 1]⟩

/-- A vm about to execute `frameLdcN`. -/
def vmLdcN : Vm :=
  { vmNew with frames := [frameLdcN] }

/-- A frame over the empty constant pool (every `Getstatic` walk on it falls
back to the numeric resolution). -/
def frameStaticW : MethodFrame :=
  ⟨[], [], ⟨[]⟩, 0, []⟩

/-- A vm whose current frame is `frameStaticW`. -/
def vmStaticW : Vm :=
  { vmNew with frames := [frameStaticW] }

/-- A one-entry pool whose `Fieldref` points at the nonexistent pool entry
10: the chain walk's interior `&entries[...]` access is out of bounds. -/
def poolBadFieldref : ConstantPool :=
  ⟨[.Fieldref 10 10]⟩

/-- A frame over `poolBadFieldref`. -/
def frameBadFieldref : MethodFrame :=
  ⟨[], [], poolBadFieldref, 0, [.Getstatic 1]⟩

/-- A vm whose current frame is `frameBadFieldref`. -/
def vmBadFieldref : Vm :=
  { vmNew with frames := [frameBadFieldref] }

/-- A pool whose entry 5 is a `Methodref` resolving to the user-defined
method `rec` of class `Main` (entry layout: 1 = `Utf8 "rec"`, 2 =
`Utf8 "()V"`, 3 = `Class 4`, 4 = `Utf8 "Main"`, 5 = `Methodref 3 6`, 6 =
`NameAndType 1 2`). -/
def poolRec : ConstantPool :=
  ⟨[.Utf8 "rec", .Utf8 "()V", .Class 4, .Utf8 "Main", .Methodref 3 6,
    .NameAndType 1 2]⟩

/-- The user-defined method `rec()V` whose only instruction calls itself
through pool entry 5. -/
def miRec : MethodInfo :=
  ⟨"rec", "()V", [.Invokestatic 5], 0, 0⟩

/-- A class file holding the self-recursive method `rec`. -/
def classRec : ClassFile :=
  ⟨poolRec, [.Invokestatic 5], 0, 0, [("rec", miRec)]⟩

/-- A frame whose single instruction calls `rec` through pool entry 5. -/
def frameRec : MethodFrame :=
  ⟨[], [], poolRec, 0, [.Invokestatic 5]⟩

/-- A vm loaded with `classRec` as the current class. -/
def vmRec : Vm :=
  { vmNew with current_class := some classRec }

/-- The vm state after `k` nested self-calls of `rec`: `k + 1` copies of
`frameRec` on the frame stack and the step counter still at `0` (steps are
counted only AFTER an instruction completes, and no instruction of this
program ever completes). -/
def vmRecStack (k : Nat) : Vm :=
  { vmRec with frames := frameRec :: List.replicate k frameRec, steps := 0 }

theorem u16IndexSucc_small {n : Nat} (h : n ≤ 65534) : u16IndexSucc n = n + 1 := by
  unfold u16IndexSucc
  omega

/-- C6: for a pool within the `u16` index range, `add_long v` returns the
1-based index `i` of the value, with `entries[i-1] = Long v` and
`entries[i] = Placeholder`; the same holds for `add_double`.  (The range
hypothesis is what the counterexample `C6_cex` forces: beyond 65534 entries
the returned `u16` index wraps.) -/
theorem C6_add_long_aliasing (p : ConstantPool) (v : Int) (w : Rat)
    (h : p.entries.length ≤ 65534) :
    ((p.add_long v).1 = p.entries.length + 1
      ∧ (p.add_long v).2.entries[(p.add_long v).1 - 1]? = some (.Long v)
      ∧ (p.add_long v).2.entries[(p.add_long v).1]? = some .Placeholder)
    ∧ ((p.add_double w).1 = p.entries.length + 1
      ∧ (p.add_double w).2.entries[(p.add_double w).1 - 1]? = some (.Double w)
      ∧ (p.add_double w).2.entries[(p.add_double w).1]? = some .Placeholder) := by
  have hidx : u16IndexSucc p.entries.length = p.entries.length + 1 := u16IndexSucc_small h
  have hfst : ∀ (a b : ConstantPoolEntry),
      (p.entries ++ [a, b])[p.entries.length]? = some a := by
    intro a b
    rw [List.getElem?_append_right (Nat.le_refl _), Nat.sub_self]
    rfl
  have hsnd : ∀ (a b : ConstantPoolEntry),
      (p.entries ++ [a, b])[p.entries.length + 1]? = some b := by
    intro a b
    rw [List.getElem?_append_right (Nat.le_succ_of_le (Nat.le_refl _))]
    have h1 : p.entries.length + 1 - p.entries.length = 1 := by omega
    rw [h1]
    rfl
  refine ⟨⟨hidx, ?_, ?_⟩, hidx, ?_, ?_⟩
  · show (p.entries ++ [.Long v, .Placeholder])[u16IndexSucc p.entries.length - 1]? =
      some (.Long v)
    rw [hidx, Nat.add_sub_cancel]
    exact hfst _ _
  · show (p.entries ++ [.Long v, .Placeholder])[u16IndexSucc p.entries.length]? =
      some .Placeholder
    rw [hidx]
    exact hsnd _ _
  · show (p.entries ++ [.Double w, .Placeholder])[u16IndexSucc p.entries.length - 1]? =
      some (.Double w)
    rw [hidx, Nat.add_sub_cancel]
    exact hfst _ _
  · show (p.entries ++ [.Double w, .Placeholder])[u16IndexSucc p.entries.length]? =
      some .Placeholder
    rw [hidx]
    exact hsnd _ _

/-- C6 witness: the aliasing property at a concrete small pool. -/
theorem C6_add_long_aliasing_witness :
    ((ConstantPool.mk []).entries.length ≤ 65534)
    ∧ (((ConstantPool.mk []).add_long 5).1 = 1
        ∧ ((ConstantPool.mk []).add_long 5).2.entries[(0 : Nat)]? = some (.Long 5)) := by
  refine ⟨by simp, ?_, ?_⟩
  · exact ((C6_add_long_aliasing ⟨[]⟩ 5 0 (by simp)).1).1
  · have h := ((C6_add_long_aliasing ⟨[]⟩ 5 0 (by simp)).1).2.1
    simpa using h

theorem poolPastCap_length : poolPastCap.entries.length = 65536 := by
  show (List.replicate 65536 (ConstantPoolEntry.Integer 0)).length = 65536
  rw [List.length_replicate]

theorem poolAtCap_length : poolAtCap.entries.length = 65535 := by
  show (List.replicate 65535 (ConstantPoolEntry.Integer 0)).length = 65535
  rw [List.length_replicate]

/-- C6 counterexample: on a pool of 65536 entries — reachable by 65536
cap-unchecked `add_integer` calls — `add_long 7` returns the wrapped index
1, and `entries[0]` is the old `Integer 0`, not `Long 7`: the claim's
aliasing equation fails. -/
theorem C6_cex :
    (poolPastCap.add_long 7).1 = 1
    ∧ ¬ ((poolPastCap.add_long 7).2.entries[((poolPastCap.add_long 7).1 - 1)]?
        = some (.Long 7)) := by
  have h1 : (poolPastCap.add_long 7).1 = 1 := by
    show u16IndexSucc poolPastCap.entries.length = 1
    rw [poolPastCap_length]
    decide
  have h2 : (poolPastCap.add_long 7).2.entries[(0 : Nat)]? = some (.Integer 0) := by
    have step1 : (poolPastCap.add_long 7).2.entries =
        poolPastCap.entries ++ [.Long 7, .Placeholder] := rfl
    rw [step1, List.getElem?_append_left (by rw [poolPastCap_length]; omega)]
    have step2 : poolPastCap.entries = List.replicate 65536 (ConstantPoolEntry.Integer 0) := rfl
    rw [step2, List.getElem?_replicate]
    rfl
  refine ⟨h1, ?_⟩
  rw [h1]
  simp only [Nat.sub_self, h2]
  intro h
  exact absurd (Option.some.inj h) (by simp)

/-- C7: the 65535-entry cap is NOT enforced by every add operation: on a
pool already holding 65535 entries, `add_integer` appends a 65536th entry
and silently returns the wrapped `u16` index 0, while `add_utf8` (one of the
four checked adds) does panic as the claim demands. -/
theorem C7_cap_not_enforced :
    (poolAtCap.add_integer 0).1 = 0
    ∧ (poolAtCap.add_integer 0).2.entries.length = 65536
    ∧ poolAtCap.add_utf8 "x" = none := by
  refine ⟨?_, ?_, ?_⟩
  · show u16IndexSucc poolAtCap.entries.length = 0
    rw [poolAtCap_length]
    decide
  · have e2 : (poolAtCap.add_integer 0).2.entries = poolAtCap.entries ++ [.Integer 0] := rfl
    rw [e2, List.length_append, poolAtCap_length]
    rfl
  · simp only [ConstantPool.add_utf8, poolAtCap_length]
    simp

theorem dropToSemi_name {name : List Char} (h : ';' ∉ name) (rest : List Char) :
    dropToSemi (name ++ ';' :: rest) = rest := by
  induction name with
  | nil => simp [dropToSemi]
  | cons c cs ih =>
    simp only [List.cons_append, dropToSemi]
    rw [if_neg (by intro hc; exact h (hc ▸ List.mem_cons_self c cs))]
    exact ih (fun hm => h (List.mem_cons_of_mem c hm))

theorem isPrimChar_ne_paren {c : Char} (h : isPrimChar c = true) : c ≠ ')' := by
  revert h
  unfold isPrimChar
  intro h hc
  subst hc
  simp at h

theorem isPrimChar_ne_L {c : Char} (h : isPrimChar c = true) : c ≠ 'L' := by
  revert h
  unfold isPrimChar
  intro h hc
  subst hc
  simp at h

theorem isPrimChar_lbrack : isPrimChar '[' = false := by decide

theorem isPrimChar_charL : isPrimChar 'L' = false := by decide

/-- Key stepping lemma for the descriptor-arity claim: scanning the encoding
of one well-formed field type counts exactly one parameter, both at the top
level and behind an array prefix `[`. -/
theorem countParamsLoop_encodeField :
    ∀ (t : FieldType), WfField t → ∀ (rest : List Char),
      countParamsLoop (encodeField t ++ rest) = 1 + countParamsLoop rest
      ∧ countParamsLoop ('[' :: (encodeField t ++ rest)) = 1 + countParamsLoop rest := by
  intro t
  induction t with
  | prim c =>
    intro hw rest
    have hc : isPrimChar c = true := hw
    constructor
    · show countParamsLoop (c :: rest) = 1 + countParamsLoop rest
      rw [countParamsLoop.eq_def]
      simp [hc, isPrimChar_ne_paren hc]
    · show countParamsLoop ('[' :: c :: rest) = 1 + countParamsLoop rest
      rw [countParamsLoop.eq_def]
      simp [hc, isPrimChar_lbrack]
  | obj name =>
    intro hw rest
    have hn : (';' ∉ name) := hw
    constructor
    · show countParamsLoop ('L' :: (name ++ [';']) ++ rest) = 1 + countParamsLoop rest
      rw [countParamsLoop.eq_def]
      simp only [List.cons_append, List.append_assoc, List.singleton_append]
      simp [isPrimChar_charL, dropToSemi_name hn]
    · show countParamsLoop ('[' :: ('L' :: (name ++ [';']) ++ rest)) = 1 + countParamsLoop rest
      rw [countParamsLoop.eq_def]
      simp only [List.cons_append, List.append_assoc, List.singleton_append]
      simp [isPrimChar_charL, isPrimChar_lbrack, dropToSemi_name hn]
  | arr s ih =>
    intro hw rest
    have ih' := ih hw
    refine ⟨(ih' rest).2, ?_⟩
    show countParamsLoop ('[' :: ('[' :: (encodeField s ++ rest))) = 1 + countParamsLoop rest
    rw [countParamsLoop.eq_def]
    simp only [isPrimChar_lbrack, reduceIte, Bool.false_eq_true, if_false]
    exact (ih' rest).1

theorem countParamsLoop_encodeList (ts : List FieldType) (ret : List Char)
    (h : ∀ t ∈ ts, WfField t) :
    countParamsLoop (ts.flatMap encodeField ++ ')' :: ret) = ts.length := by
  induction ts with
  | nil =>
    rw [List.flatMap_nil, List.nil_append, countParamsLoop.eq_def]
    simp
  | cons t ts ih =>
    rw [List.flatMap_cons, List.append_assoc]
    rw [(countParamsLoop_encodeField t (h t (List.mem_cons_self t ts)) _).1]
    rw [ih (fun u hu => h u (List.mem_cons_of_mem t hu))]
    simp [List.length_cons, Nat.add_comm]

/-- C8: for every valid method descriptor — parameter types drawn from the
field-type grammar with the primitive letters `B C D F I J S Z`, `L…;`
references whose names contain no `;`, and `[`-prefixed array types —
`count_method_parameters` returns exactly the number of parameter types; the
return type after `)` is not counted. -/
theorem C8_descriptor_arity (ts : List FieldType) (ret : List Char)
    (h : ∀ t ∈ ts, WfField t) :
    count_method_parameters (String.mk (encodeDescriptor ts ret)) = ts.length := by
  show countParamsLoop (dropToParen ('(' :: (ts.flatMap encodeField ++ ')' :: ret)))
    = ts.length
  rw [dropToParen]
  simp only [reduceIte]
  exact countParamsLoop_encodeList ts ret h

/-- C8 witness: the claim's own example descriptor
`(IJLjava/lang/String;[D)V` has four parameters. -/
theorem C8_descriptor_arity_witness :
    count_method_parameters "(IJLjava/lang/String;[D)V" = 4 := by
  have harg : ∀ t ∈ [FieldType.prim 'I', FieldType.prim 'J',
      FieldType.obj "java/lang/String".data, FieldType.arr (FieldType.prim 'D')],
      WfField t := by
    intro t ht
    fin_cases ht <;> decide
  have h := C8_descriptor_arity
    [FieldType.prim 'I', FieldType.prim 'J',
      FieldType.obj "java/lang/String".data, FieldType.arr (FieldType.prim 'D')]
    ['V'] harg
  have heq : String.mk (encodeDescriptor
      [FieldType.prim 'I', FieldType.prim 'J',
        FieldType.obj "java/lang/String".data, FieldType.arr (FieldType.prim 'D')]
      ['V']) = "(IJLjava/lang/String;[D)V" := by decide
  rw [heq] at h
  exact h

theorem i8_roundtrip {v : Int} (h1 : -128 ≤ v) (h2 : v < 128) :
    byteAsI8 (i8AsU8 v) = v := by
  unfold byteAsI8 i8AsU8
  split <;> omega

theorem i16_roundtrip {v : Int} (h1 : -32768 ≤ v) (h2 : v < 32768) :
    u16AsI16 (i16AsU16 v) = v := by
  unfold u16AsI16 i16AsU16
  split <;> omega

theorem u16FromBytes_split {n : Nat} : u16FromBytes (n / 256) (n % 256) = n := by
  unfold u16FromBytes
  omega

theorem u16AsI16_of_small {n : Nat} (h : n < 32768) : u16AsI16 n = (n : Int) := by
  unfold u16AsI16
  rw [if_pos h]

theorem parse_bipush (b : Nat) (rest : List Nat) :
    parse_bytecode (16 :: b :: rest)
      = (parse_bytecode rest).map (.Bipush (byteAsI8 b) :: ·) := rfl

theorem parse_sipush (b1 b2 : Nat) (rest : List Nat) :
    parse_bytecode (17 :: b1 :: b2 :: rest)
      = (parse_bytecode rest).map (.Sipush (u16AsI16 (u16FromBytes b1 b2)) :: ·) := rfl

theorem parse_ldc (b : Nat) (rest : List Nat) :
    parse_bytecode (18 :: b :: rest) = (parse_bytecode rest).map (.Ldc b :: ·) := rfl

theorem parse_getstatic (b1 b2 : Nat) (rest : List Nat) :
    parse_bytecode (178 :: b1 :: b2 :: rest)
      = (parse_bytecode rest).map (.Getstatic (u16FromBytes b1 b2) :: ·) := rfl

theorem parse_invokevirtual (b1 b2 : Nat) (rest : List Nat) :
    parse_bytecode (182 :: b1 :: b2 :: rest)
      = (parse_bytecode rest).map (.Invokevirtual (u16FromBytes b1 b2) :: ·) := rfl

theorem parse_invokestatic (b1 b2 : Nat) (rest : List Nat) :
    parse_bytecode (184 :: b1 :: b2 :: rest)
      = (parse_bytecode rest).map (.Invokestatic (u16FromBytes b1 b2) :: ·) := rfl

/-- Per-instruction round trip: the decoder run on the writer's encoding of
one instruction (well-formed immediates, `Ldc` index within a byte) yields
the writer-normalized instruction and continues with the remaining bytes. -/
theorem parse_encodeInstr (i : JvmInstruction) (rest : List Nat)
    (h1 : WfInstr i) (h2 : LdcFits i) :
    parse_bytecode (encodeInstr i ++ rest)
      = (parse_bytecode rest).map (writerNormalize i :: ·) := by
  cases i
  case Bipush v =>
    obtain ⟨ha, hb⟩ := h1
    show parse_bytecode (16 :: i8AsU8 v :: rest)
      = (parse_bytecode rest).map (.Bipush v :: ·)
    rw [parse_bipush, i8_roundtrip ha hb]
  case Sipush v =>
    obtain ⟨ha, hb⟩ := h1
    show parse_bytecode (17 :: (i16AsU16 v / 256) :: (i16AsU16 v % 256) :: rest)
      = (parse_bytecode rest).map (.Sipush v :: ·)
    rw [parse_sipush, u16FromBytes_split, i16_roundtrip ha hb]
  case Ldc index =>
    have h2' : index < 256 := h2
    show parse_bytecode (18 :: index % 256 :: rest)
      = (parse_bytecode rest).map (.Ldc index :: ·)
    rw [parse_ldc, Nat.mod_eq_of_lt h2']
  case Getstatic index =>
    show parse_bytecode (178 :: (index / 256) :: (index % 256) :: rest)
      = (parse_bytecode rest).map (.Getstatic index :: ·)
    rw [parse_getstatic, u16FromBytes_split]
  case Invokevirtual index =>
    show parse_bytecode (182 :: (index / 256) :: (index % 256) :: rest)
      = (parse_bytecode rest).map (.Invokevirtual index :: ·)
    rw [parse_invokevirtual, u16FromBytes_split]
  case Invokestatic index =>
    show parse_bytecode (184 :: (index / 256) :: (index % 256) :: rest)
      = (parse_bytecode rest).map (.Invokestatic index :: ·)
    rw [parse_invokestatic, u16FromBytes_split]
  all_goals rfl

/-- C1 (amended): for every instruction stream whose immediates fit their
declared Rust widths AND whose `Ldc` indices fit in one byte, decoding the
writer's byte stream reconstructs the stream with every
writer-unsupported instruction replaced by `Nop`.  (The byte-size
restriction on `Ldc` is what the counterexample `C1_cex` forces: the writer
emits `index as u8`.) -/
theorem C1_round_trip (S : List JvmInstruction)
    (h1 : ∀ i ∈ S, WfInstr i) (h2 : ∀ i ∈ S, LdcFits i) :
    parse_bytecode (instructions_to_bytes S) = .ok (S.map writerNormalize) := by
  induction S with
  | nil => rfl
  | cons i S ih =>
    show parse_bytecode ((i :: S).flatMap encodeInstr) = _
    rw [List.flatMap_cons]
    rw [parse_encodeInstr i _ (h1 i (List.mem_cons_self i S)) (h2 i (List.mem_cons_self i S))]
    have ih' : parse_bytecode (S.flatMap encodeInstr) = .ok (S.map writerNormalize) :=
      ih (fun j hj => h1 j (List.mem_cons_of_mem i hj))
        (fun j hj => h2 j (List.mem_cons_of_mem i hj))
    rw [ih']
    rfl

/-- C1 witness: a concrete stream mixing supported instructions (with
positive and negative immediates) and a writer-unsupported one (`Goto`,
which becomes `Nop`). -/
theorem C1_round_trip_witness :
    (∀ i ∈ [JvmInstruction.Iconst2, .Bipush (-5), .Sipush 300, .Ldc 7,
        .Getstatic 31, .Goto 3, .Return], WfInstr i)
    ∧ (∀ i ∈ [JvmInstruction.Iconst2, .Bipush (-5), .Sipush 300, .Ldc 7,
        .Getstatic 31, .Goto 3, .Return], LdcFits i)
    ∧ parse_bytecode (instructions_to_bytes
        [JvmInstruction.Iconst2, .Bipush (-5), .Sipush 300, .Ldc 7,
          .Getstatic 31, .Goto 3, .Return])
      = .ok ([JvmInstruction.Iconst2, .Bipush (-5), .Sipush 300, .Ldc 7,
          .Getstatic 31, .Goto 3, .Return].map writerNormalize) :=
  ⟨by decide, by decide, C1_round_trip _ (by decide) (by decide)⟩

/-- C1 counterexample: the writer truncates the `u16` immediate of
`Ldc(256)` to the single byte 0, so the reader reconstructs `Ldc(0)`, not
the original `Ldc(256)` — even though `Ldc` is a writer-supported
instruction (`writerNormalize` keeps it unchanged). -/
theorem C1_cex :
    parse_bytecode (instructions_to_bytes [JvmInstruction.Ldc 256])
      = .ok [JvmInstruction.Ldc 0]
    ∧ [JvmInstruction.Ldc 256].map writerNormalize = [JvmInstruction.Ldc 256]
    ∧ JvmInstruction.Ldc 0 ≠ JvmInstruction.Ldc 256 := by
  refine ⟨rfl, rfl, ?_⟩
  intro h
  have := JvmInstruction.Ldc.inj h
  omega

theorem check_snd_imp_fst (cp : ConstantPool) (n d : Nat) :
    (check_is_main_method cp n d).2 = true → (check_is_main_method cp n d).1 = true := by
  unfold check_is_main_method
  dsimp only
  split
  · split
    · intro h
      exact absurd h (by simp)
    · split
      · split
        · simp
        · split
          · simp
          · intro h
            exact absurd h (by simp)
      · intro h
        exact absurd h (by simp)
  · intro h
    exact absurd h (by simp)

theorem pref_imp_accepted (cp : ConstantPool) (m : RawMethod) :
    isPreferredMain cp m = true → isAcceptedMain cp m = true := by
  unfold isPreferredMain isAcceptedMain
  intro h
  rcases Bool.and_eq_true_iff.mp h with ⟨h1, h2⟩
  exact Bool.and_eq_true_iff.mpr ⟨check_snd_imp_fst cp _ _ h1, h2⟩

theorem accepted_bytecode_ne (cp : ConstantPool) (m : RawMethod)
    (h : isAcceptedMain cp m = true) : m.bytecode ≠ [] := by
  unfold isAcceptedMain at h
  rcases Bool.and_eq_true_iff.mp h with ⟨_, h2⟩
  intro hnil
  rw [hnil] at h2
  simp at h2

/-- The selection update of one method-loop iteration, stated through the
acceptance predicates: the method becomes the main exactly when it is an
accepted main and either nothing is selected yet or it is preferred. -/
theorem processMethod_main (cp : ConstantPool) (st : ParseSelection) (m : RawMethod) :
    (processMethod cp st m).main_method_bytecode =
      if isAcceptedMain cp m && (st.main_method_bytecode.isEmpty || isPreferredMain cp m)
      then m.bytecode else st.main_method_bytecode := by
  unfold processMethod isAcceptedMain isPreferredMain
  cases hbc : m.bytecode.isEmpty with
  | true =>
    simp [hbc]
  | false =>
    cases h1 : (check_is_main_method cp m.name_index m.descriptor_index).1 <;>
      cases h2 : (check_is_main_method cp m.name_index m.descriptor_index).2 <;>
      cases h3 : st.main_method_bytecode.isEmpty <;>
      simp [hbc, h1, h2, h3]

theorem selectMethods_append_one (cp : ConstantPool) (ms : List RawMethod) (m : RawMethod) :
    selectMethods cp (ms ++ [m]) = processMethod cp (selectMethods cp ms) m := by
  unfold selectMethods
  rw [List.foldl_append]
  rfl

theorem filter_pref_nil_of_accepted_nil (cp : ConstantPool) (ms : List RawMethod)
    (h : ms.filter (isAcceptedMain cp) = []) : ms.filter (isPreferredMain cp) = [] := by
  rw [List.filter_eq_nil_iff] at h ⊢
  intro a ha hpa
  exact h a ha (pref_imp_accepted cp a hpa)

/-- C3 (amended): the parser's entry-point selection rule is: of the methods
with code bodies accepted by `check_is_main_method`, the LAST preferred
(`()V`) one wins when any preferred one exists, otherwise the FIRST accepted
one wins.  In particular `()V` beats `([Ljava/lang/String;)V`, but a tie
between two `()V` mains selects the last encountered, not the first. -/
theorem C3_main_selection (cp : ConstantPool) (ms : List RawMethod) :
    (selectMethods cp ms).main_method_bytecode = mainSelectionSpec cp ms := by
  have main : ∀ ms : List RawMethod,
      (selectMethods cp ms).main_method_bytecode = mainSelectionSpec cp ms
      ∧ ((selectMethods cp ms).main_method_bytecode = []
          ↔ ms.filter (isAcceptedMain cp) = []) := by
    intro ms
    induction ms using List.reverseRecOn with
    | nil => exact ⟨rfl, by simp [selectMethods, mainSelectionSpec]⟩
    | append_singleton ms m ih =>
      obtain ⟨ihspec, ihempty⟩ := ih
      rw [selectMethods_append_one, processMethod_main]
      by_cases hpref : isPreferredMain cp m = true
      · have hacc : isAcceptedMain cp m = true := pref_imp_accepted cp m hpref
        rw [if_pos (by simp [hacc, hpref])]
        constructor
        · unfold mainSelectionSpec
          rw [List.filter_append, List.filter_append,
            List.filter_cons_of_pos hpref, List.filter_cons_of_pos hacc, List.filter_nil,
            List.getLast?_append_of_ne_nil _ (by simp)]
          simp
        · constructor
          · intro h
            exact absurd h (accepted_bytecode_ne cp m hacc)
          · intro h
            rw [List.filter_append, List.filter_cons_of_pos hacc, List.filter_nil] at h
            exact absurd h (by simp)
      · have hprefF : ¬ isPreferredMain cp m = true := hpref
        by_cases hacc : isAcceptedMain cp m = true
        · by_cases hmain : (selectMethods cp ms).main_method_bytecode = []
          · rw [if_pos (by simp [hacc, hmain])]
            have haccnil : ms.filter (isAcceptedMain cp) = [] := ihempty.mp hmain
            constructor
            · unfold mainSelectionSpec
              rw [List.filter_append, List.filter_append,
                List.filter_cons_of_pos hacc, List.filter_cons_of_neg hprefF,
                List.filter_nil, List.append_nil,
                filter_pref_nil_of_accepted_nil cp ms haccnil, haccnil]
              simp
            · constructor
              · intro h
                exact absurd h (accepted_bytecode_ne cp m hacc)
              · intro h
                rw [List.filter_append, List.filter_cons_of_pos hacc, List.filter_nil] at h
                exact absurd h (by simp)
          · rw [if_neg (by simp [hacc, hprefF, List.isEmpty_iff, hmain])]
            have haccne : ms.filter (isAcceptedMain cp) ≠ [] := fun h => hmain (ihempty.mpr h)
            constructor
            · rw [ihspec]
              unfold mainSelectionSpec
              rw [List.filter_append, List.filter_append,
                List.filter_cons_of_pos hacc, List.filter_cons_of_neg hprefF,
                List.filter_nil, List.append_nil,
                List.head?_append_of_ne_nil _ haccne]
            · constructor
              · intro h
                exact absurd (ihempty.mp h) haccne
              · intro h
                rw [List.filter_append, List.filter_cons_of_pos hacc, List.filter_nil] at h
                exact absurd h (by simp)
        · have haccF : ¬ isAcceptedMain cp m = true := hacc
          rw [if_neg (by simp [haccF])]
          constructor
          · rw [ihspec]
            unfold mainSelectionSpec
            rw [List.filter_append, List.filter_append,
              List.filter_cons_of_neg haccF, List.filter_cons_of_neg hprefF,
              List.filter_nil, List.filter_nil, List.append_nil, List.append_nil]
          · rw [ihempty, List.filter_append, List.filter_cons_of_neg haccF,
              List.filter_nil, List.append_nil]
  exact (main ms).1

/-- C3 counterexample: two `main` methods with descriptor `()V` and
different bodies — the selection keeps the LAST one, while the claim says a
tie selects the first encountered. -/
theorem C3_cex :
    (selectMethods ⟨[.Utf8 "main", .Utf8 "()V"]⟩
        [⟨1, 2, [.Return], 0, 0⟩, ⟨1, 2, [.Nop, .Return], 0, 0⟩]).main_method_bytecode
      = [.Nop, .Return]
    ∧ [JvmInstruction.Nop, .Return] ≠ [JvmInstruction.Return] := by
  refine ⟨rfl, ?_⟩
  intro h
  simp at h

theorem list_get?_lt {α : Type} {l : List α} {n : Nat} {a : α} (h : l.get? n = some a) :
    n < l.length := by
  by_contra hc
  rw [List.get?_eq_none.mpr (by omega)] at h
  exact Option.noConfusion h

/-- C4: AMENDED.  The `InvalidInstructionPointer` fault of the claim is
never produced: (1) a fetch with `pc` at or past the end of the bytecode
pops the current frame and continues normally (an implicit void return),
and (2) `Goto` stores its raw offset into `pc` with no range check and
always succeeds (the `If*` branches set `pc` through the equally unchecked
`ifArm`).  A branch target outside `[0, bytecode.len())` therefore
terminates the frame normally on the next fetch instead of faulting. -/
theorem C4_no_pc_fault (ops : ExternOps) (n : Nat) (vm : Vm) (frame : MethodFrame)
    (rest : List MethodFrame) (hfr : vm.frames = frame :: rest) :
    (frame.pc ≥ frame.bytecode.length →
      execute_single_instruction ops (n + 1) vm = .ok (none, { vm with frames := rest }))
    ∧ (∀ offset, frame.pc < frame.bytecode.length →
      frame.bytecode.get? frame.pc = some (.Goto offset) →
      execute_single_instruction ops (n + 1) vm
        = .ok (none, vm.withTop rest { frame with pc := offset })) := by
  constructor
  · intro h
    simp only [execute_single_instruction, hfr]
    rw [if_pos h]
  · intro offset hlt hins
    simp only [execute_single_instruction, hfr]
    rw [if_neg (by omega), hins]

/-- C4 witness: `Goto 5` over one-instruction bytecode succeeds, landing
`pc` at the out-of-range position 5 with no fault. -/
theorem C4_no_pc_fault_witness :
    execute_single_instruction opsUnit 1 vmGotoW
      = .ok (none, Vm.withTop vmGotoW [] { frameGotoW with pc := 5 }) :=
  (C4_no_pc_fault opsUnit 0 vmGotoW frameGotoW [] rfl).2 5 (by decide) rfl

/-- C4 counterexample: running the one-instruction method `[Goto 5]` sets
`pc := 5`, outside `[0, 1)`; the claimed `InvalidInstructionPointer` fault
does not happen — the run terminates NORMALLY after two steps. -/
theorem C4_cex :
    execute_method opsUnit 10 vmNew [.Goto 5] ⟨[]⟩ 0
      = .ok (none, { vmNew with steps := 2 }) := rfl

/-- C9: AMENDED.  `Idiv` and `Irem` fault with `DivisionByZero` when the
popped divisor is the integer `0`, PROVIDED the dividend below it also
coerces through `as_int`; `Ddiv` faults with `DivisionByZero` for a
`Double 0` divisor PROVIDED the dividend is itself a `Double`.  The operand
type checks run BEFORE the zero test, so an ill-typed dividend yields
`InvalidStackState` even when the divisor is zero (see the counterexample).
No result is pushed: the instruction returns the error. -/
theorem C9_division_by_zero (ops : ExternOps) (n : Nat) (vm : Vm) (frame : MethodFrame)
    (rest : List MethodFrame) (va : JvmValue) (a : ℤ) (s : List JvmValue)
    (hfr : vm.frames = frame :: rest) (hpc : frame.pc < frame.bytecode.length) :
    (frame.bytecode.get? frame.pc = some .Idiv →
      frame.operand_stack = .Int 0 :: va :: s → va.as_int = .ok a →
      execute_single_instruction ops (n + 1) vm = .err .DivisionByZero)
    ∧ (frame.bytecode.get? frame.pc = some .Irem →
      frame.operand_stack = .Int 0 :: va :: s → va.as_int = .ok a →
      execute_single_instruction ops (n + 1) vm = .err .DivisionByZero)
    ∧ (∀ d : ℚ, frame.bytecode.get? frame.pc = some .Ddiv →
      frame.operand_stack = .Double 0 :: .Double d :: s →
      execute_single_instruction ops (n + 1) vm = .err .DivisionByZero) := by
  have h0 : (JvmValue.Int 0).as_int = Except.ok 0 := rfl
  refine ⟨?_, ?_, ?_⟩
  · intro hins hstk hai
    simp only [execute_single_instruction, hfr]
    rw [if_neg (by omega), hins]
    simp only [intBinArm, hstk, h0, hai, if_true]
  · intro hins hstk hai
    simp only [execute_single_instruction, hfr]
    rw [if_neg (by omega), hins]
    simp only [intBinArm, hstk, h0, hai, if_true]
  · intro d hins hstk
    simp only [execute_single_instruction, hfr]
    rw [if_neg (by omega), hins]
    simp only [doubleBinArm, hstk, if_true]

/-- C9 witness: `Idiv` over the stack `[0, 6]` (divisor on top) faults with
`DivisionByZero`. -/
theorem C9_division_by_zero_witness :
    execute_single_instruction opsUnit 1 vmIdivW = .err .DivisionByZero :=
  (C9_division_by_zero opsUnit 0 vmIdivW frameIdivW [] (.Int 6) 6 [] rfl
    (by decide)).1 rfl rfl rfl

/-- C9 counterexample: `[Iconst1, Dconst0, Ddiv]` divides by the double
`0.0`, yet the fault is `InvalidStackState` (the dividend `Int 1` fails the
`Double`/`Double` type test, which runs before the zero test), not the
`DivisionByZero` the claim requires for every zero-divisor `Ddiv`. -/
theorem C9_cex :
    execute_method opsUnit 10 vmNew [.Iconst1, .Dconst0, .Ddiv] ⟨[]⟩ 0
      = .err .InvalidStackState
    ∧ RtError.InvalidStackState ≠ RtError.DivisionByZero :=
  ⟨rfl, by decide⟩

theorem load_pure (vm : Vm) (frame : MethodFrame) (rest : List MethodFrame) (k : Nat)
    (entry : ConstantPoolEntry) (v : JvmValue)
    (hfr : vm.frames = frame :: rest)
    (hentry : frame.constant_pool.entries.get? (u16Pred k) = some entry)
    (hv : poolLoadPure entry = some v) :
    vm.load_constant_from_pool k = .ok (v, vm) := by
  have hlt := list_get?_lt hentry
  simp only [Vm.load_constant_from_pool, hfr]
  rw [if_neg (by omega), hentry]
  cases entry
  case Integer i => injection hv with hv; subst hv; rfl
  case Float f => injection hv with hv; subst hv; rfl
  case Long l => injection hv with hv; subst hv; rfl
  case Double d => injection hv with hv; subst hv; rfl
  all_goals simp [poolLoadPure] at hv

/-- C5: AMENDED.  Two back-to-back `Ldc k` of the same index push
structurally equal values whenever the pool entry is a NUMERIC loadable
(`Integer`/`Float`/`Long`/`Double`): the load is then pure and the vm is
unchanged.  The claim's inclusion of `String` entries fails: each `String`
load allocates a FRESH heap object, so the two pushed references are
distinct (see the counterexample). -/
theorem C5_two_ldc (ops : ExternOps) (n₁ n₂ : Nat) (vm : Vm) (frame : MethodFrame)
    (rest : List MethodFrame) (k : Nat) (entry : ConstantPoolEntry) (v : JvmValue)
    (hfr : vm.frames = frame :: rest)
    (hins₁ : frame.bytecode.get? frame.pc = some (.Ldc k))
    (hins₂ : frame.bytecode.get? (frame.pc + 1) = some (.Ldc k))
    (hentry : frame.constant_pool.entries.get? (u16Pred k) = some entry)
    (hv : poolLoadPure entry = some v) :
    execute_single_instruction ops (n₁ + 1) vm
      = .ok (none, vm.withTop rest ((frame.push v).advance))
    ∧ execute_single_instruction ops (n₂ + 1) (vm.withTop rest ((frame.push v).advance))
      = .ok (none, vm.withTop rest (((frame.push v).advance.push v).advance)) := by
  have hlt₁ := list_get?_lt hins₁
  have hlt₂ := list_get?_lt hins₂
  constructor
  · have hload := load_pure vm frame rest k entry v hfr hentry hv
    simp only [execute_single_instruction, hfr]
    rw [if_neg (by omega), hins₁]
    dsimp only
    rw [hload]
    simp only [hfr]
  · have hfr' : (vm.withTop rest ((frame.push v).advance)).frames
        = ((frame.push v).advance) :: rest := rfl
    have hins' : ((frame.push v).advance).bytecode.get? ((frame.push v).advance).pc
        = some (.Ldc k) := hins₂
    have hentry' : ((frame.push v).advance).constant_pool.entries.get? (u16Pred k)
        = some entry := hentry
    have hload := load_pure (vm.withTop rest ((frame.push v).advance))
      ((frame.push v).advance) rest k entry v hfr' hentry' hv
    simp only [execute_single_instruction, hfr']
    rw [if_neg (by simp only [MethodFrame.advance, MethodFrame.push]; omega), hins']
    dsimp only
    rw [hload]
    simp only [hfr']
    rfl

/-- C5 witness: two `Ldc 1` over the pool `[Integer 7]` both push the value
`Int 7`. -/
theorem C5_two_ldc_witness :
    execute_single_instruction opsUnit 1 vmLdcN
      = .ok (none, Vm.withTop vmLdcN [] ((frameLdcN.push (.Int 7)).advance))
    ∧ execute_single_instruction opsUnit 1
        (Vm.withTop vmLdcN [] ((frameLdcN.push (.Int 7)).advance))
      = .ok (none, Vm.withTop vmLdcN []
          ((((frameLdcN.push (.Int 7)).advance).push (.Int 7)).advance)) :=
  C5_two_ldc opsUnit 0 0 vmLdcN frameLdcN [] 1 (.Integer 7) (.Int 7) rfl rfl rfl rfl rfl

/-- C5 counterexample: two back-to-back `Ldc 2` of the SAME `String` pool
entry both succeed but push DISTINCT references (heap ids 1 and 2), each to
a fresh string object holding the same text `"A"` — not structurally equal
values as the claim requires. -/
theorem C5_cex :
    (execute_single_instruction opsUnit 1 vmLdcS).isOk = true
    ∧ (execute_single_instruction opsUnit 1 (stepVm opsUnit vmLdcS)).isOk = true
    ∧ (stepVm opsUnit (stepVm opsUnit vmLdcS)).frames.map (fun f => f.operand_stack)
        = [[.Reference (some 2), .Reference (some 1)]]
    ∧ JvmValue.Reference (some 2) ≠ JvmValue.Reference (some 1)
    ∧ alistGet? (stepVm opsUnit (stepVm opsUnit vmLdcS)).string_data 1 = some "A"
    ∧ alistGet? (stepVm opsUnit (stepVm opsUnit vmLdcS)).string_data 2 = some "A" :=
  ⟨rfl, rfl, rfl, by decide, rfl, rfl⟩

theorem resolve_static_fallback_eq (vm : Vm) (frame : MethodFrame)
    (rest : List MethodFrame) (field_ref : Nat) (hfr : vm.frames = frame :: rest)
    (h : classifyStaticField frame.constant_pool.entries field_ref = .fallback) :
    vm.resolve_static_field field_ref = vm.resolve_static_field_numeric field_ref := by
  simp only [Vm.resolve_static_field, hfr]
  unfold classifyStaticField at h
  dsimp only at h ⊢
  split at h
  · rw [if_pos (by assumption)]
  · rw [if_neg (by assumption)]
    repeat' split at h
    all_goals repeat' split
    all_goals simp_all

theorem resolve_static_crash_eq (vm : Vm) (frame : MethodFrame)
    (rest : List MethodFrame) (field_ref : Nat) (hfr : vm.frames = frame :: rest)
    (h : classifyStaticField frame.constant_pool.entries field_ref = .walkCrash) :
    vm.resolve_static_field field_ref = .crash := by
  simp only [Vm.resolve_static_field, hfr]
  unfold classifyStaticField at h
  dsimp only at h ⊢
  split at h
  · simp_all
  · rw [if_neg (by assumption)]
    repeat' split at h
    all_goals repeat' split
    all_goals simp_all

/-- C10: AMENDED.  When the `Getstatic` walk over the constant pool does
not reach a recognized `(java/lang/System, out|err)` `Fieldref` chain, the
numeric fallback applies — index 31 pushes a reference to a freshly
allocated stdout `PrintStream` object, index 32 a stderr one, every other
index faults with `InvalidStackState` — EXCEPT when an interior link of the
chain is out of bounds: those unchecked `&entries[...]` accesses panic
(crash) instead of falling back.  A top-level index past the end of the
pool does fall back as claimed. -/
theorem C10_static_fallback (vm : Vm) (frame : MethodFrame) (rest : List MethodFrame)
    (field_ref : Nat) (hfr : vm.frames = frame :: rest) :
    (classifyStaticField frame.constant_pool.entries field_ref = .fallback →
      vm.resolve_static_field field_ref = vm.resolve_static_field_numeric field_ref)
    ∧ (classifyStaticField frame.constant_pool.entries field_ref = .walkCrash →
      vm.resolve_static_field field_ref = .crash)
    ∧ vm.resolve_static_field_numeric 31
        = .ok (.Reference (some vm.next_object_id), (vm.create_printstream_object "stdout").2)
    ∧ vm.resolve_static_field_numeric 32
        = .ok (.Reference (some vm.next_object_id), (vm.create_printstream_object "stderr").2)
    ∧ (∀ r, r ≠ 31 → r ≠ 32 → vm.resolve_static_field_numeric r = .err .InvalidStackState) := by
  refine ⟨resolve_static_fallback_eq vm frame rest field_ref hfr,
    resolve_static_crash_eq vm frame rest field_ref hfr, rfl, rfl, ?_⟩
  intro r h31 h32
  unfold Vm.resolve_static_field_numeric
  split
  · exact absurd rfl h31
  · exact absurd rfl h32
  · rfl

/-- C10 witness: over the empty pool every walk falls back, so `Getstatic`
index 31 resolves to a fresh stdout `PrintStream` reference (heap id 1). -/
theorem C10_static_fallback_witness :
    Vm.resolve_static_field vmStaticW 31
      = .ok (.Reference (some 1), (Vm.create_printstream_object vmStaticW "stdout").2) := by
  have h := C10_static_fallback vmStaticW frameStaticW [] 31 rfl
  exact (h.1 (by decide)).trans h.2.2.1

/-- C10 counterexample: a `Fieldref` whose class link points at the
nonexistent pool entry 10 makes the chain walk PANIC (unchecked interior
indexing) instead of reaching the numeric fallback the claim requires,
which would have faulted with `InvalidStackState`. -/
theorem C10_cex :
    Vm.resolve_static_field vmBadFieldref 1 = .crash
    ∧ Vm.resolve_static_field_numeric vmBadFieldref 1 = .err .InvalidStackState
    ∧ (Res.crash ≠ (.err .InvalidStackState : Res (JvmValue × Vm))) :=
  ⟨rfl, rfl, fun h => Res.noConfusion h⟩

theorem C2_aux (ops : ExternOps) : ∀ fuel : Nat,
    (∀ k, execute_single_instruction ops fuel (vmRecStack k) = .nofuel)
    ∧ (∀ k, invoke_static_method ops fuel (vmRecStack k) 5 = .nofuel)
    ∧ (∀ k, invoke_user_defined_method ops fuel (vmRecStack k) miRec = .nofuel)
    ∧ (∀ k, invoke_user_loop ops fuel (vmRecStack (k + 1)) = .nofuel) := by
  intro fuel
  induction fuel with
  | zero => exact ⟨fun _ => rfl, fun _ => rfl, fun _ => rfl, fun _ => rfl⟩
  | succ f ih =>
    obtain ⟨ih₁, ih₂, ih₃, ih₄⟩ := ih
    refine ⟨?_, ?_, ?_, ?_⟩
    · intro k
      have hstep : execute_single_instruction ops (f + 1) (vmRecStack k)
          = (match invoke_static_method ops f (vmRecStack k) 5 with
             | .err e => .err e
             | .crash => .crash
             | .nofuel => .nofuel
             | .ok vm₁ =>
               match vm₁.frames with
               | [] => .err .CallStackUnderflow
               | frame₁ :: rest₁ => .ok (none, vm₁.withTop rest₁ frame₁.advance)) := rfl
      rw [hstep, ih₂ k]
    · intro k
      have hstep : invoke_static_method ops (f + 1) (vmRecStack k) 5
          = invoke_user_defined_method ops f (vmRecStack k) miRec := rfl
      rw [hstep]
      exact ih₃ k
    · intro k
      have hcount : count_method_parameters miRec.descriptor = 0 := by
        show countParamsLoop (dropToParen "()V".data) = 0
        rw [show dropToParen "()V".data = [')', 'V'] from rfl]
        simp [countParamsLoop]
      have hstep : invoke_user_defined_method ops (f + 1) (vmRecStack k) miRec
          = invoke_user_loop ops f (vmRecStack (k + 1)) := by
        simp only [invoke_user_defined_method]
        rw [show (vmRecStack k).frames = frameRec :: List.replicate k frameRec from rfl]
        dsimp only
        rw [hcount]
        rfl
      rw [hstep]
      exact ih₄ k
    · intro k
      have hlen : (vmRecStack (k + 1)).frames.length = k + 2 := by
        show (frameRec :: List.replicate (k + 1) frameRec).length = k + 2
        simp
      have hsteps : (vmRecStack (k + 1)).steps = 0 := rfl
      have hmax : (vmRecStack (k + 1)).max_steps = 100000 := rfl
      simp only [invoke_user_loop]
      rw [if_pos (by rw [gt_iff_lt, hlen]; omega),
        if_neg (by rw [ge_iff_le, hmax, hsteps]; omega), ih₁ (k + 1)]

/-- C2 (code bug): the step budget does NOT bound execution.  The nested
loop that runs a user-defined method counts an instruction only AFTER it
completes, and a recursive `Invokestatic` runs the whole callee INSIDE the
current instruction; a self-recursive method therefore keeps the step
counter at 0 forever and the `max_steps`/`InvalidStackState` ceiling is
never reached: for EVERY fuel, running the one-instruction program that
calls the self-recursive `rec()V` exhausts the fuel (`nofuel`, the model of
divergence) instead of stopping within 100 000 steps. -/
theorem C2_budget_bypassed (ops : ExternOps) (fuel : Nat) :
    execute_method ops fuel vmRec [.Invokestatic 5] poolRec 0 = .nofuel := by
  cases fuel with
  | zero => rfl
  | succ f =>
    have h := (C2_aux ops f).1 0
    have hstep : execute_method ops (f + 1) vmRec [.Invokestatic 5] poolRec 0
        = (match execute_single_instruction ops f (vmRecStack 0) with
           | .err e => .err e
           | .crash => .crash
           | .nofuel => .nofuel
           | .ok (result, vm₁) =>
             match result with
             | some rv => .ok (some rv, { vm₁ with steps := vm₁.steps + 1 })
             | none => execute_method_loop ops f { vm₁ with steps := vm₁.steps + 1 }) := rfl
    rw [hstep, h]

end DiceJvm
